import Mathlib

/-!
# CPU affinity tool (`ch11/cpu_affinity/userspc_cpuaffinity.c`)

A shallow embedding of the userspace CPU-affinity tool and a verification of its
rendering, mask construction and argument dispatch.

* machine integers are `Nat`/`Int` with explicit wrap-around;
* every C loop is run by `forLoop` with a fuel bound, so termination is proved,
  never assumed;
* the operating system is an arbitrary transition system `OS σ`; a run of the
  program yields the exit status and the chronological list of `Event`s.
-/

namespace CpuAffinity

/-! ## Machine integers -/

/-- Value of an integer after conversion to `unsigned int` (32 bits). -/
def to_uint (n : Int) : Nat := (n % 4294967296).toNat

/-- Value of an integer after conversion to `int` (32 bits, two's complement
wrap-around, as gcc and clang define the conversion).  The increments and decrements
of the `int` counters go through it as well, so that a counter that leaves the range of
`int` wraps around; on the inputs of the closed forms below no counter leaves that
range. -/
def to_int (n : Int) : Int := (n + 2147483648) % 4294967296 - 2147483648

/-! ## Loops -/

/-- A C loop `for (...; cond; step) body` on the state `s`, where `body` stands for the
loop body followed by the step expression.  `none` when the fuel runs out. -/
def forLoop {σ : Type} (cond : σ → Bool) (body : σ → σ) : Nat → σ → Option σ
  | 0, _ => none
  | fuel + 1, s => if cond s then forLoop cond body fuel (body s) else some s

/-! ## `printf` conversions -/

/-- Modelled from the spec: the conversions of `printf` are not part of the source.
The column width is fixed (3 characters per core index): as the C standard has it, a
field width of `width` right-aligns the text `s` in at least `width` characters,
padding with blanks on the left, and never truncates. -/
def pad_left (width : Nat) (s : String) : String :=
  String.mk (List.replicate (width - s.length) ' ') ++ s

/-- Modelled from the spec: the conversions of `printf` are not part of the source.
The decimal text of a signed integer, as the `%d` conversion prints it. -/
def dec_text (v : Int) : String :=
  if v < 0 then "-" ++ Nat.repr v.natAbs else Nat.repr v.natAbs

/-- The conversion `%d` applied to an `int`. -/
def fmt_d (v : Int) : String := dec_text v

/-- The conversion `%3d` applied to an `int`. -/
def fmt_3d (v : Int) : String := pad_left 3 (dec_text v)

/-- The conversion `%3u` applied to an `int` argument read as `unsigned int`. -/
def fmt_3u (v : Int) : String := pad_left 3 (Nat.repr (to_uint v))

/-! ## `cpu_set_t` -/

/-- Capacity of a `cpu_set_t` in CPUs (`CPU_SETSIZE` of `<sched.h>`). -/
def CPU_SETSIZE : Nat := 1024

/-- Modelled from the spec: the type `cpu_set_t` of `<sched.h>` is not part of the
source; it is the AffinityMask of the spec, a fixed-width collection of one bit per
core sized to the maximum supported core count (1024).  Bit `i` of `bits` is the
membership of core `i`. -/
structure cpu_set_t where
  bits : Nat
  bounded : bits < 2 ^ CPU_SETSIZE
  deriving DecidableEq

/-- Modelled from the spec: the macro `CPU_ZERO` of `<sched.h>` is not part of the
source; it is `Zero()` of the spec, which clears all bits. -/
def CPU_ZERO : cpu_set_t := ⟨0, Nat.two_pow_pos CPU_SETSIZE⟩

/-- Modelled from the spec: the macro `CPU_SET` of `<sched.h>` is not part of the
source; it is `Set(coreIndex)` of the spec, which marks the core as a member when
`0 ≤ coreIndex < maxSupportedCores`.  The argument is converted to `size_t`, so a
negative index is out of range; an out-of-range index leaves the set unchanged. -/
def CPU_SET (cpu : Int) (set : cpu_set_t) : cpu_set_t :=
  if h : 0 ≤ cpu ∧ cpu.toNat < CPU_SETSIZE then
    ⟨set.bits ||| 2 ^ cpu.toNat,
      Nat.or_lt_two_pow set.bounded (Nat.pow_lt_pow_right (by decide) h.2)⟩
  else set

/-- Modelled from the spec: the macro `CPU_ISSET` of `<sched.h>` is not part of the
source; it is `Test(coreIndex)` of the spec, the membership query, given as the `int`
(1 or 0) that the macro yields; an out-of-range index yields 0. -/
def CPU_ISSET (cpu : Int) (set : cpu_set_t) : Int :=
  if 0 ≤ cpu ∧ cpu.toNat < CPU_SETSIZE then
    (if set.bits.testBit cpu.toNat then 1 else 0)
  else 0

/-! ## The renderer -/

/-- State of the loops of the renderer: the counter `int i` and the text printed so
far. -/
structure RowState where
  i : Int
  out : String
  deriving DecidableEq

/-- Translation of `print_ruler_line(unsigned int len)`: the text it prints.  The
comparison `i <= len*4` is made in `unsigned int`. -/
def print_ruler_line (fuel : Nat) (len : Nat) : Option String :=
  (forLoop
      (fun (st : RowState) => decide (to_uint st.i ≤ (len * 4) % 4294967296))
      (fun (st : RowState) => ⟨to_int (st.i + 1),
        st.out ++ (if Int.tmod st.i 4 = 0 then "+" else "-")⟩)
      fuel ⟨1, "       +"⟩).map
    (fun (st : RowState) => st.out ++ "\n")

/-- Lines 71 to 76 of `disp_cpumask`: the text of the row of core indices. -/
def core_row (fuel : Nat) (ncores : Nat) : Option String :=
  (forLoop
      (fun (st : RowState) => decide (0 ≤ st.i))
      (fun (st : RowState) => ⟨to_int (st.i - 1), st.out ++ (fmt_3d st.i ++ "|")⟩)
      fuel ⟨to_int (to_uint ((ncores : Int) - 1)), "core#  |"⟩).map
    (fun (st : RowState) => st.out ++ "\n")

/-- Lines 79 to 82 of `disp_cpumask`: the text of the row of membership flags. -/
def cpumask_row (fuel : Nat) (cpumask : cpu_set_t) (ncores : Nat) : Option String :=
  (forLoop
      (fun (st : RowState) => decide (0 ≤ st.i))
      (fun (st : RowState) =>
        ⟨to_int (st.i - 1), st.out ++ (fmt_3u (CPU_ISSET st.i cpumask) ++ "|")⟩)
      fuel ⟨to_int (to_uint ((ncores : Int) - 1)), "cpumask|"⟩).map
    (fun (st : RowState) => st.out ++ "\n")

/-- Lines 69 to 83 of `disp_cpumask`: the table, made of three ruler lines, the row of
core indices and the row of flags. -/
def render_table (fuel : Nat) (cpumask : cpu_set_t) (ncores : Nat) : Option String := do
  let r1 ← print_ruler_line fuel ncores
  let idx ← core_row fuel ncores
  let r2 ← print_ruler_line fuel ncores
  let flags ← cpumask_row fuel cpumask ncores
  let r3 ← print_ruler_line fuel ncores
  pure (r1 ++ idx ++ r2 ++ flags ++ r3)

/-! ## C library functions used by the driver -/

/-- Modelled from the spec: `strncmp` of `<string.h>` is not part of the source; the
help request of the specification (`--help` / `-h` as first argument) is tested with
it.  As the C standard has it, it compares at most `n` leading characters of two C
strings and yields 0 exactly when they agree (a string that ends early agrees only
with one that ends at the same place), else the difference of the first two
characters that differ. -/
def strncmp : List Char → List Char → Nat → Int
  | _, _, 0 => 0
  | [], [], _ + 1 => 0
  | [], b :: _, _ + 1 => - (b.toNat : Int)
  | a :: _, [], _ + 1 => (a.toNat : Int)
  | a :: as, b :: bs, n + 1 =>
    if a = b then strncmp as bs n else (a.toNat : Int) - (b.toNat : Int)

/-- Part of the model of `strtoul` and `atoi`: the white-space characters of the C
locale (`isspace`). -/
def isspace (c : Char) : Bool :=
  c = ' ' || c = '\t' || c = '\n' || c.toNat = 11 || c.toNat = 12 || c = '\r'

/-- Part of the model of `strtoul` and `atoi`: the value of a character as a digit
(`0-9`, then letters for 10 to 35). -/
def digit_value (c : Char) : Option Nat :=
  if '0' ≤ c ∧ c ≤ '9' then some (c.toNat - 48)
  else if 'a' ≤ c ∧ c ≤ 'z' then some (c.toNat - 87)
  else if 'A' ≤ c ∧ c ≤ 'Z' then some (c.toNat - 55)
  else none

/-- Part of the model of `strtoul` and `atoi`: the value of the longest leading run of
digits valid in `base`, started at `acc`. -/
def scan_digits (base : Nat) : List Char → Nat → Nat
  | [], acc => acc
  | c :: cs, acc =>
    match digit_value c with
    | some d => if d < base then scan_digits base cs (acc * base + d) else acc
    | none => acc

/-- Part of the model of `strtoul` and `atoi`: split an optional sign off the front of
the text; `true` for a minus sign. -/
def strip_sign : List Char → Bool × List Char
  | [] => (false, [])
  | c :: cs => if c = '-' then (true, cs) else if c = '+' then (false, cs) else (false, c :: cs)

/-- Part of the model of `strtoul`: the base used and the text left after the base
marker.  With base 0 the marker `0x`/`0X` selects 16, a leading `0` selects 8, anything
else 10; with base 16 the marker `0x`/`0X` is skipped. -/
def detect_base (base : Nat) : List Char → Nat × List Char
  | [] => (if base = 0 then 10 else base, [])
  | [c] => (if base = 0 then (if c = '0' then 8 else 10) else base, [c])
  | c :: x :: cs =>
    if c = '0' ∧ (x = 'x' ∨ x = 'X') ∧ (base = 0 ∨ base = 16) then (16, cs)
    else (if base = 0 then (if c = '0' then 8 else 10) else base, c :: x :: cs)

/-- Modelled from the spec: `strtoul` of `<stdlib.h>` is not part of the source.  It
parses an unsigned integer honouring the standard base markers (`0x` for hex, leading
`0` for octal, else decimal, when `base` is 0); unparsable text yields zero.  As the C
standard has it, leading white space is skipped, a minus sign negates the value in
`unsigned long`, and a value out of range yields `ULONG_MAX`.  `szl` is
`sizeof(unsigned long)`. -/
def strtoul (szl : Nat) (s : String) (base : Nat) : Nat :=
  let signed := strip_sign (s.data.dropWhile isspace)
  let based := detect_base base signed.2
  let v := scan_digits based.1 based.2 0
  if 2 ^ (8 * szl) ≤ v then 2 ^ (8 * szl) - 1
  else if signed.1 then (2 ^ (8 * szl) - v) % 2 ^ (8 * szl) else v

/-- Modelled from the spec: `atoi` of `<stdlib.h>` is not part of the source.  It
parses a textual integer; non-numeric text parses to 0.  As the C standard has it,
`atoi(s)` is `(int)strtol(s, NULL, 10)`: leading white space is skipped, a sign is
honoured, the value is clamped to the range of `long` and then converted to `int`.
`szl` is `sizeof(long)`. -/
def atoi (szl : Nat) (s : String) : Int :=
  let signed := strip_sign (s.data.dropWhile isspace)
  let v : Int := scan_digits 10 signed.2 0
  let l : Int := if signed.1 then max (-v) (-(2 ^ (8 * szl - 1))) else min v (2 ^ (8 * szl - 1) - 1)
  to_int l

/-- Modelled from the spec: `snprintf` of `<stdio.h>` is not part of the source.  As
the C standard has it, `snprintf(buf, size, ...)` stores at most `size - 1` characters
of the formatted text. -/
def snprintf (size : Nat) (text : String) : String := String.mk (text.data.take (size - 1))

/-! ## The operating system and the observable run -/

/-- The `sizeof(cpu_set_t)` passed to the affinity system calls. -/
def sizeof_cpu_set_t : Nat := CPU_SETSIZE / 8

/-- The operating system as a transition system on an arbitrary state `σ`.  Each call
yields its return value (and, for `sched_getaffinity`, the content of the caller's
buffer afterwards) and the next state; nothing is assumed about them. -/
structure OS (σ : Type) where
  getpid : σ → Int × σ
  get_nprocs : σ → Int × σ
  system : String → σ → Int × σ
  sched_getaffinity : Int → Nat → cpu_set_t → σ → Int × cpu_set_t × σ
  sched_setaffinity : Int → Nat → cpu_set_t → σ → Int × σ

/-- What the program does that is visible from outside, in program order. -/
inductive Event where
  | getpid (ret : Int)
  | get_nprocs (ret : Int)
  | system (cmd : String) (ret : Int)
  | sched_getaffinity (pid : Int) (ret : Int) (mask : cpu_set_t)
  | sched_setaffinity (pid : Int) (mask : cpu_set_t) (ret : Int)
  | stdout (text : String)
  | stderr (text : String)
  | perror (msg : String)
  deriving DecidableEq

/-- State of the running process: the state of the operating system, the global
`numcores`, and the events so far. -/
structure Proc (σ : Type) where
  world : σ
  numcores : Nat
  trace : List Event

/-- Append an event to the run. -/
def Proc.emit {σ : Type} (p : Proc σ) (e : Event) : Proc σ :=
  { p with trace := p.trace ++ [e] }

/-- Translation of `disp_cpumask`. -/
def disp_cpumask {σ : Type} (os : OS σ) (fuel : Nat) (pid : Int) (cpumask : cpu_set_t)
    (ncores : Nat) (p : Proc σ) : Option (Proc σ) :=
  let p1 := p.emit (Event.stdout ("CPU affinity mask for PID " ++ fmt_d pid ++ ":\n"))
  let tmpbuf := snprintf 127 ("ps -A |awk \x27$1 == " ++ fmt_d pid ++ " \x7bprint $0\x7d\x27")
  let r := os.system tmpbuf p1.world
  let p2 : Proc σ := { p1 with world := r.2, trace := p1.trace ++ [Event.system tmpbuf r.1] }
  let p3 := if r.1 = -1 then
      p2.emit (Event.stderr "Warning: disp_cpumask():system(3) (to show ps output) failed\n")
    else p2
  (render_table fuel cpumask ncores).map (fun t => p3.emit (Event.stdout t))

/-- Translation of `query_cpu_affinity`: the return value and the process afterwards. -/
def query_cpu_affinity {σ : Type} (os : OS σ) (fuel : Nat) (pid : Int) (p : Proc σ) :
    Option (Int × Proc σ) :=
  let cpumask := CPU_ZERO
  let r := os.sched_getaffinity pid sizeof_cpu_set_t cpumask p.world
  let p1 : Proc σ :=
    { p with world := r.2.2, trace := p.trace ++ [Event.sched_getaffinity pid r.1 r.2.1] }
  if r.1 < 0 then
    some (-1, p1.emit (Event.perror "sched_getaffinity() failed"))
  else
    (disp_cpumask os fuel pid r.2.1 p1.numcores p1).map (fun p2 => (0, p2))

/-- State of the loop of `set_cpu_affinity`: the counter `int i` and the set under
construction, with a record of the shift counts evaluated and of the indices passed
to `CPU_SET`, in order. -/
structure MaskState where
  i : Int
  cpumask : cpu_set_t
  shifts : List Int
  cpus : List Int
  deriving DecidableEq

/-- Lines 106 to 113 of `set_cpu_affinity`: `CPU_ZERO` and the loop over the bits of
`bitmask`.  `szl` is `sizeof(unsigned long)`; the comparison with `sizeof(unsigned
long)*8` is made in `size_t`, which has the width of `unsigned long`. -/
def build_cpumask (szl : Nat) (fuel : Nat) (bitmask : Nat) : Option MaskState :=
  forLoop
    (fun (st : MaskState) => decide ((st.i % 2 ^ (8 * szl)).toNat < szl * 8))
    (fun (st : MaskState) =>
      if (bitmask >>> st.i.toNat) &&& 1 ≠ 0 then
        ⟨to_int (st.i + 1), CPU_SET st.i st.cpumask, st.shifts ++ [st.i], st.cpus ++ [st.i]⟩
      else
        ⟨to_int (st.i + 1), st.cpumask, st.shifts ++ [st.i], st.cpus⟩)
    fuel ⟨0, CPU_ZERO, [], []⟩

/-- Translation of `set_cpu_affinity`: the return value and the process afterwards. -/
def set_cpu_affinity {σ : Type} (os : OS σ) (szl : Nat) (fuel : Nat) (pid : Int)
    (bitmask : Nat) (p : Proc σ) : Option (Int × Proc σ) :=
  let p1 := p.emit
    (Event.stdout ("\nSetting CPU affinity mask for PID " ++ fmt_d pid ++ " now...\n"))
  (build_cpumask szl fuel bitmask).bind fun st =>
    let r := os.sched_setaffinity pid sizeof_cpu_set_t st.cpumask p1.world
    let p2 : Proc σ :=
      { p1 with world := r.2, trace := p1.trace ++ [Event.sched_setaffinity pid st.cpumask r.1] }
    if r.1 < 0 then
      some (-1, p2.emit (Event.perror "sched_setaffinity() failed"))
    else
      (disp_cpumask os fuel pid st.cpumask p2.numcores p2).map (fun p3 => (0, p3))

/-- The usage text of `main`. -/
def usage_text (argv0 : String) : String :=
  "Usage: " ++ argv0 ++ " [PID] [new-CPU-mask]\n" ++
  "(If using the optional params, you must at least pass the process PID;\n" ++
  "we (attempt to) set CPU affinity only if new-CPU-mask is passed)\n"

/-- The test of `main` for a help request on `argv[1]`. -/
def help_requested (arg : String) : Bool :=
  strncmp arg.data "--help".data 6 = 0 || strncmp arg.data "-h".data 2 = 0

/-- Translation of `main`: the exit status and the process at exit (the state of the
operating system and the events of the run).  `argv` holds the program name and the
arguments (`argc` is its length); `szl` is `sizeof(unsigned long)`. -/
def main {σ : Type} (os : OS σ) (szl : Nat) (fuel : Nat) (argv : List String) (w : σ) :
    Option (Int × Proc σ) :=
  let argc := argv.length
  let g := os.getpid w
  let pid : Int := g.1
  let p0 : Proc σ := ⟨g.2, 0, [Event.getpid g.1]⟩
  if argc > 1 ∧ help_requested (argv.getD 1 "") then
    some (0, p0.emit (Event.stderr (usage_text (argv.getD 0 ""))))
  else
    let n := os.get_nprocs p0.world
    let p1 : Proc σ := ⟨n.2, to_uint n.1, p0.trace ++ [Event.get_nprocs n.1]⟩
    let p2 := p1.emit
      (Event.stdout ("Detected " ++ fmt_d (to_int p1.numcores) ++ " CPU cores system-wide\n"))
    let pid := if argc ≥ 2 then atoi szl (argv.getD 1 "") else pid
    (query_cpu_affinity os fuel pid p2).bind fun q =>
      if argc = 3 then
        let new_cpumask := strtoul szl (argv.getD 2 "") 0
        (set_cpu_affinity os szl fuel pid new_cpumask q.2).bind fun s =>
          some (0, s.2)
      else
        some (0, q.2)

/-! ## Vocabulary of the statements -/

/-- The indices `n - 1, ..., 0`, highest first. -/
def descending (n : Nat) : List Nat := (List.range n).reverse

/-- The flag of core `i` in the set: the text `1` when bit `i` is stored, `0` otherwise. -/
def flag_text (m : cpu_set_t) (i : Nat) : String := if m.bits.testBit i then "1" else "0"

/-- The ruler line for `n` cores as the specification describes it: the label
position closed by `+`, then `n` cells `---+`. -/
def ruler_line (n : Nat) : String := "       +" ++ String.join (List.replicate n "---+")

/-- The row of core indices for `n` cores as the specification describes it: the
label, then for `i = n - 1` down to `0` the index right-aligned in 3 characters and a
bar. -/
def core_line (n : Nat) : String :=
  "core#  |" ++ String.join ((descending n).map (fun (i : Nat) => fmt_3d (i : Int) ++ "|"))

/-- The row of flags for `n` cores as the specification describes it: the label, then
for `i = n - 1` down to `0` the flag of core `i` right-aligned in 3 characters and a
bar. -/
def cpumask_line (m : cpu_set_t) (n : Nat) : String :=
  "cpumask|" ++ String.join ((descending n).map (fun i => pad_left 3 (flag_text m i) ++ "|"))

/-- The events that are calls of the two affinity system calls. -/
def Event.is_affinity_call : Event → Bool
  | Event.sched_getaffinity _ _ _ => true
  | Event.sched_setaffinity _ _ _ => true
  | _ => false

/-- The affinity system calls of a run, in order: the Query and Set operations. -/
def affinity_calls (tr : List Event) : List Event := tr.filter Event.is_affinity_call

/-- The target of a run without help request: the integer parsed from the first
argument when there is one, the caller's own ID otherwise. -/
def target_of {σ : Type} (os : OS σ) (szl : Nat) (argv : List String) (w : σ) : Int :=
  if argv.length ≥ 2 then atoi szl (argv.getD 1 "") else (os.getpid w).1

/-- The core count detected at startup, as stored in `numcores`. -/
def detected_cores {σ : Type} (os : OS σ) (w : σ) : Nat :=
  to_uint (os.get_nprocs (os.getpid w).2).1

/-- The outcome of the initial Query: what `sched_getaffinity` answers for the target
in the state the operating system is in when `main` reaches the call. -/
def initial_query {σ : Type} (os : OS σ) (szl : Nat) (argv : List String) (w : σ) :
    Int × cpu_set_t × σ :=
  os.sched_getaffinity (target_of os szl argv w) sizeof_cpu_set_t CPU_ZERO
    (os.get_nprocs (os.getpid w).2).2

/-- Text that does not begin with a number: after leading white space and an optional
sign comes no decimal digit. -/
def non_numeric (s : String) : Bool :=
  match s.data.dropWhile isspace with
  | [] => true
  | c :: rest =>
    if c = '-' ∨ c = '+' then
      (match rest with
       | [] => true
       | d :: _ => !decide ('0' ≤ d ∧ d ≤ '9'))
    else !decide ('0' ≤ c ∧ c ≤ '9')

/-- The base that the marker at the front of a number selects, in the words of the
specification: `0x` for hex, leading `0` for octal, else decimal. -/
def marker_base (s : String) : Nat :=
  match (strip_sign (s.data.dropWhile isspace)).2 with
  | c :: x :: _ => if c = '0' ∧ (x = 'x' ∨ x = 'X') then 16 else if c = '0' then 8 else 10
  | [c] => if c = '0' then 8 else 10
  | [] => 10

/-- The cores that are members of both sets. -/
def cpu_and (a b : cpu_set_t) : cpu_set_t :=
  ⟨a.bits &&& b.bits, Nat.and_lt_two_pow _ b.bounded⟩

/-- An operating system for examples, on a machine of 4 cores where the cpuset of the
target allows cores 0 and 1 only: its state is the affinity mask of the target;
`sched_setaffinity` stores the requested mask restricted to the allowed cores and
fails when nothing is left, as Linux does; `sched_getaffinity` reports the stored
mask. -/
def os_cpuset : OS cpu_set_t :=
  { getpid := fun w => (77, w)
    get_nprocs := fun w => (4, w)
    system := fun _ w => (0, w)
    sched_getaffinity := fun _ _ _ w => (0, w, w)
    sched_setaffinity := fun _ _ mask w =>
      if (cpu_and mask (CPU_SET 1 (CPU_SET 0 CPU_ZERO))).bits = 0 then (-1, w)
      else (0, cpu_and mask (CPU_SET 1 (CPU_SET 0 CPU_ZERO))) }

/-- An operating system for examples on which the target does not exist: both affinity
calls fail and leave the buffer alone, and the snapshot command cannot be run. -/
def os_no_target : OS Unit :=
  { getpid := fun w => (77, w)
    get_nprocs := fun w => (4, w)
    system := fun _ w => (-1, w)
    sched_getaffinity := fun _ _ buf w => (-1, buf, w)
    sched_setaffinity := fun _ _ _ w => (-1, w) }

/-- An operating system for examples whose state is the number of calls made to it,
on a machine of 4 cores where every call succeeds. -/
def os_counting : OS Nat :=
  { getpid := fun w => (77, w + 1)
    get_nprocs := fun w => (4, w + 1)
    system := fun _ w => (0, w + 1)
    sched_getaffinity := fun _ _ buf w => (0, buf, w + 1)
    sched_setaffinity := fun _ _ _ w => (0, w + 1) }

/-- The table that a confirmation Query at the end of a run would show: the rendering
of the mask that `sched_getaffinity` reports for `pid` in the state the operating
system is in at exit. -/
def requeried_table {σ : Type} (os : OS σ) (fuel : Nat) (pid : Int) (ncores : Nat)
    (r : Proc σ) : Option String :=
  render_table fuel (os.sched_getaffinity pid sizeof_cpu_set_t CPU_ZERO r.world).2.1 ncores

/-- A set holding core 0 only. -/
def only_core0 : cpu_set_t := CPU_SET 0 CPU_ZERO

/-- A set holding cores 0 and 1. -/
def cores_0_1 : cpu_set_t := CPU_SET 1 (CPU_SET 0 CPU_ZERO)

/-- A set holding cores 0 to 3. -/
def cores_0_3 : cpu_set_t := CPU_SET 3 (CPU_SET 2 (CPU_SET 1 (CPU_SET 0 CPU_ZERO)))

/-! ## Machine integers: lemmas -/

lemma to_int_of_range (x : Int) (h1 : -2147483648 ≤ x) (h2 : x < 2147483648) :
    to_int x = x := by
  unfold to_int; omega

lemma to_uint_of_range (x : Int) (h1 : 0 ≤ x) (h2 : x < 4294967296) :
    to_uint x = x.toNat := by
  unfold to_uint; omega

lemma to_int_range (x : Int) : -2147483648 ≤ to_int x ∧ to_int x < 2147483648 := by
  unfold to_int; omega

/-- The initial value of the counter of the two row loops is `ncores - 1` whenever
`ncores` is at most `2^31`. -/
lemma row_init (n : Nat) (hn : n ≤ 2147483648) :
    to_int (to_uint ((n : Int) - 1)) = (n : Int) - 1 := by
  unfold to_int to_uint; omega

/-! ## Loops: lemmas -/

lemma forLoop_succ {σ : Type} (cond : σ → Bool) (body : σ → σ) (fuel : Nat) (s : σ) :
    forLoop cond body (fuel + 1) s
      = if cond s then forLoop cond body fuel (body s) else some s := rfl

/-- A loop whose body decreases a measure returns once the fuel exceeds the measure. -/
lemma forLoop_terminates {σ : Type} (cond : σ → Bool) (body : σ → σ) (μ : σ → Nat)
    (hdec : ∀ s, cond s = true → μ (body s) < μ s) :
    ∀ (fuel : Nat) (s : σ), μ s < fuel → ∃ r, forLoop cond body fuel s = some r := by
  intro fuel
  induction fuel with
  | zero => intro s h; omega
  | succ k ih =>
    intro s h
    rw [forLoop_succ]
    by_cases hc : cond s = true
    · rw [if_pos hc]
      exact ih (body s) (by have := hdec s hc; omega)
    · rw [if_neg hc]
      exact ⟨s, rfl⟩

/-! ## Text: lemmas -/

lemma join_cons (a : String) (l : List String) : String.join (a :: l) = a ++ String.join l := by
  have key : ∀ (l : List String) (acc : String),
      List.foldl (fun r s => r ++ s) acc l = acc ++ List.foldl (fun r s => r ++ s) "" l := by
    intro l
    induction l with
    | nil => intro acc; simp
    | cons b t ih =>
      intro acc
      simp only [List.foldl_cons]
      rw [ih (acc ++ b), ih ("" ++ b)]
      simp [String.append_assoc]
  unfold String.join
  rw [List.foldl_cons, key]
  simp

lemma join_nil : String.join [] = "" := rfl

lemma range_reverse_succ (n : Nat) :
    (List.range (n + 1)).reverse = n :: (List.range n).reverse := by
  rw [List.range_succ, List.reverse_append]; rfl

/-! ## The two row loops -/

/-- A row loop started at `n - 1` appends the cells of `n - 1, ..., 0` in this order
and stops at `-1`. -/
lemma row_loop (cell : Int → String) :
    ∀ (n fuel : Nat) (out : String), n ≤ 2147483648 → n < fuel →
      forLoop (fun (st : RowState) => decide (0 ≤ st.i))
          (fun (st : RowState) => ⟨to_int (st.i - 1), st.out ++ (cell st.i ++ "|")⟩)
          fuel ⟨(n : Int) - 1, out⟩
        = some ⟨-1, out ++ String.join ((List.range n).reverse.map
            (fun (i : Nat) => cell (i : Int) ++ "|"))⟩ := by
  intro n
  induction n with
  | zero =>
    intro fuel out _ hf
    obtain ⟨k, rfl⟩ : ∃ k, fuel = k + 1 := ⟨fuel - 1, by omega⟩
    simp [forLoop, join_nil]
  | succ m ih =>
    intro fuel out hn hf
    obtain ⟨k, rfl⟩ : ∃ k, fuel = k + 1 := ⟨fuel - 1, by omega⟩
    rw [forLoop_succ]
    have hc : decide (0 ≤ (((m + 1 : Nat) : Int) - 1)) = true := by
      simp
    simp only [hc, if_true]
    have hi : to_int ((((m + 1 : Nat) : Int) - 1) - 1) = (m : Int) - 1 := by
      rw [to_int_of_range] <;> push_cast <;> omega
    rw [hi, ih k _ (by omega) (by omega), range_reverse_succ, List.map_cons, join_cons]
    simp [String.append_assoc]

lemma testBit_of_ge (m : cpu_set_t) (i : Nat) (h : CPU_SETSIZE ≤ i) :
    m.bits.testBit i = false :=
  Nat.testBit_lt_two_pow (lt_of_lt_of_le m.bounded (Nat.pow_le_pow_right (by decide) h))

lemma CPU_ISSET_nat (m : cpu_set_t) (i : Nat) :
    CPU_ISSET (i : Int) m = if m.bits.testBit i then 1 else 0 := by
  unfold CPU_ISSET
  by_cases h : i < CPU_SETSIZE
  · simp [h]
  · have := testBit_of_ge m i (by omega)
    simp [h, this]

lemma flag_cell (m : cpu_set_t) (i : Nat) :
    fmt_3u (CPU_ISSET (i : Int) m) = pad_left 3 (flag_text m i) := by
  rw [CPU_ISSET_nat]
  unfold flag_text fmt_3u
  by_cases h : m.bits.testBit i = true
  · simp only [h, if_true]; decide
  · simp only [h]; decide

lemma cpumask_row_eq (m : cpu_set_t) (n fuel : Nat) (hn : n ≤ 2147483648) (hf : n < fuel) :
    cpumask_row fuel m n = some (cpumask_line m n ++ "\n") := by
  unfold cpumask_row cpumask_line descending
  rw [row_init n hn, row_loop (fun i => fmt_3u (CPU_ISSET i m)) n fuel _ hn hf]
  simp only [Option.map_some', flag_cell]

lemma core_row_eq (n fuel : Nat) (hn : n ≤ 2147483648) (hf : n < fuel) :
    core_row fuel n = some (core_line n ++ "\n") := by
  unfold core_row core_line descending
  rw [row_init n hn, row_loop fmt_3d n fuel _ hn hf]
  simp only [Option.map_some']

/-! ## The ruler -/

lemma tmod_four (x : Nat) : (Int.tmod (x : Int) 4 = 0) ↔ x % 4 = 0 := by
  rw [Int.tmod_eq_emod (by omega) (by omega)]
  omega

/-- One iteration of the loop of `print_ruler_line` while the counter is in range. -/
lemma ruler_step (L fuel x : Nat) (out : String) (hx : x ≤ L) (hL : L < 2147483647) :
    forLoop (fun (st : RowState) => decide (to_uint st.i ≤ L))
        (fun (st : RowState) => ⟨to_int (st.i + 1),
          st.out ++ (if Int.tmod st.i 4 = 0 then "+" else "-")⟩)
        (fuel + 1) ⟨(x : Int), out⟩
      = forLoop (fun (st : RowState) => decide (to_uint st.i ≤ L))
        (fun (st : RowState) => ⟨to_int (st.i + 1),
          st.out ++ (if Int.tmod st.i 4 = 0 then "+" else "-")⟩)
        fuel ⟨((x + 1 : Nat) : Int), out ++ (if x % 4 = 0 then "+" else "-")⟩ := by
  rw [forLoop_succ]
  have h1 : to_uint (x : Int) = x := by rw [to_uint_of_range] <;> omega
  have h2 : to_int ((x : Int) + 1) = ((x + 1 : Nat) : Int) := by
    rw [to_int_of_range] <;> push_cast <;> omega
  simp only [h1, hx, decide_True, if_true, h2, tmod_four]

/-- Four iterations of the loop of `print_ruler_line` print one cell `---+`. -/
lemma ruler_cell (L fuel k : Nat) (out : String) (hk : 4 * k + 4 ≤ L) (hL : L < 2147483647) :
    forLoop (fun (st : RowState) => decide (to_uint st.i ≤ L))
        (fun (st : RowState) => ⟨to_int (st.i + 1),
          st.out ++ (if Int.tmod st.i 4 = 0 then "+" else "-")⟩)
        (fuel + 4) ⟨((4 * k + 1 : Nat) : Int), out⟩
      = forLoop (fun (st : RowState) => decide (to_uint st.i ≤ L))
        (fun (st : RowState) => ⟨to_int (st.i + 1),
          st.out ++ (if Int.tmod st.i 4 = 0 then "+" else "-")⟩)
        fuel ⟨((4 * (k + 1) + 1 : Nat) : Int), out ++ "---+"⟩ := by
  rw [show fuel + 4 = fuel + 1 + 1 + 1 + 1 by omega]
  rw [ruler_step L _ (4 * k + 1) _ (by omega) hL, ruler_step L _ (4 * k + 1 + 1) _ (by omega) hL,
    ruler_step L _ (4 * k + 1 + 1 + 1) _ (by omega) hL,
    ruler_step L _ (4 * k + 1 + 1 + 1 + 1) _ (by omega) hL]
  have e1 : ¬ (4 * k + 1) % 4 = 0 := by omega
  have e2 : ¬ (4 * k + 1 + 1) % 4 = 0 := by omega
  have e3 : ¬ (4 * k + 1 + 1 + 1) % 4 = 0 := by omega
  have e4 : (4 * k + 1 + 1 + 1 + 1) % 4 = 0 := by omega
  simp only [e1, e2, e3, e4, if_true, if_false, String.append_assoc]
  rfl

/-- The loop of `print_ruler_line` started at the beginning of cell `k` prints the
remaining `m` cells and stops. -/
lemma ruler_loop (len : Nat) (hl : len < 536870911) :
    ∀ (m k fuel : Nat) (out : String), k + m = len → 4 * m < fuel →
      forLoop (fun (st : RowState) => decide (to_uint st.i ≤ 4 * len))
          (fun (st : RowState) => ⟨to_int (st.i + 1),
            st.out ++ (if Int.tmod st.i 4 = 0 then "+" else "-")⟩)
          fuel ⟨((4 * k + 1 : Nat) : Int), out⟩
        = some ⟨((4 * len + 1 : Nat) : Int),
            out ++ String.join (List.replicate m "---+")⟩ := by
  intro m
  induction m with
  | zero =>
    intro k fuel out hk hf
    obtain ⟨f, rfl⟩ : ∃ f, fuel = f + 1 := ⟨fuel - 1, by omega⟩
    have hk2 : k = len := by omega
    subst hk2
    rw [forLoop_succ]
    have h1 : to_uint ((4 * k + 1 : Nat) : Int) = 4 * k + 1 := by
      rw [to_uint_of_range] <;> omega
    simp only [h1, join_nil, List.replicate_zero]
    rw [if_neg (by simp)]
    simp
  | succ m ih =>
    intro k fuel out hk hf
    obtain ⟨f, rfl⟩ : ∃ f, fuel = f + 4 := ⟨fuel - 4, by omega⟩
    rw [ruler_cell (4 * len) f k out (by omega) (by omega),
      ih (k + 1) f _ (by omega) (by omega), List.replicate_succ, join_cons,
      String.append_assoc]

lemma print_ruler_line_eq (len fuel : Nat) (hl : len < 536870911) (hf : 4 * len < fuel) :
    print_ruler_line fuel len = some (ruler_line len ++ "\n") := by
  unfold print_ruler_line ruler_line
  have hL : (len * 4) % 4294967296 = 4 * len := by omega
  rw [hL]
  have := ruler_loop len hl len 0 fuel "       +" (by omega) hf
  simp only [Nat.mul_zero, Nat.zero_add, Nat.cast_one] at this
  rw [this]
  rfl

/-! ## Cells of four characters -/

lemma join_length (cs : List String) (h4 : ∀ c ∈ cs, c.length = 4) :
    (String.join cs).length = 4 * cs.length := by
  induction cs with
  | nil => rfl
  | cons a t ih =>
    rw [join_cons, String.length_append, h4 a (List.mem_cons_self a t),
      ih (fun c hc => h4 c (List.mem_cons_of_mem a hc)), List.length_cons]
    omega

/-- Character `r` of cell `j` stands at offset `4 * j + r` of the joined cells. -/
lemma join_get (cs : List String) (h4 : ∀ c ∈ cs, c.length = 4) :
    ∀ (j r : Nat) (c : String), cs[j]? = some c → r < 4 →
      (String.join cs).data[4 * j + r]? = c.data[r]? := by
  induction cs with
  | nil => intro j r c hc; simp at hc
  | cons a t ih =>
    intro j r c hc hr
    have ha : a.data.length = 4 := h4 a (List.mem_cons_self a t)
    rw [join_cons, String.data_append]
    cases j with
    | zero =>
      simp only [List.getElem?_cons_zero, Option.some.injEq] at hc
      subst hc
      rw [List.getElem?_append_left (by omega), Nat.mul_zero, Nat.zero_add]
    | succ j =>
      simp only [List.getElem?_cons_succ] at hc
      rw [List.getElem?_append_right (by omega), ha,
        show 4 * (j + 1) + r - 4 = 4 * j + r by omega]
      exact ih (fun c hc => h4 c (List.mem_cons_of_mem a hc)) j r c hc hr

/-- A line made of a label of eight characters and cells of four: the characters of
the label. -/
lemma line_get_label (label : String) (cs : List String) (hl : label.length = 8)
    (p : Nat) (hp : p < 8) :
    (label ++ String.join cs).data[p]? = label.data[p]? := by
  have hl2 : label.data.length = 8 := hl
  rw [String.data_append, List.getElem?_append_left (by omega)]

/-- A line made of a label of eight characters and cells of four: the characters of
the cells. -/
lemma line_get_cell (label : String) (cs : List String) (hl : label.length = 8)
    (h4 : ∀ c ∈ cs, c.length = 4) (j r : Nat) (c : String) (hc : cs[j]? = some c)
    (hr : r < 4) :
    (label ++ String.join cs).data[8 + 4 * j + r]? = c.data[r]? := by
  have hl2 : label.data.length = 8 := hl
  rw [String.data_append, List.getElem?_append_right (by omega), hl2,
    show 8 + 4 * j + r - 8 = 4 * j + r by omega]
  exact join_get cs h4 j r c hc hr

lemma line_length (label : String) (cs : List String) (hl : label.length = 8)
    (h4 : ∀ c ∈ cs, c.length = 4) :
    (label ++ String.join cs).length = 8 + 4 * cs.length := by
  rw [String.length_append, hl, join_length cs h4]

lemma pad_left_length (s : String) (h : s.length ≤ 3) : (pad_left 3 s).length = 3 := by
  unfold pad_left
  rw [String.length_append]
  simp only [String.length, List.length_replicate]
  have : s.data.length ≤ 3 := h
  omega

lemma descending_length (n : Nat) : (descending n).length = n := by
  simp [descending]

lemma descending_get (n k : Nat) (hk : k < n) : (descending n)[k]? = some (n - 1 - k) := by
  unfold descending
  rw [List.getElem?_reverse (by simpa using hk)]
  simp only [List.length_range]
  rw [List.getElem?_range (by omega)]

lemma mem_descending (n i : Nat) : i ∈ descending n ↔ i < n := by
  simp [descending]

/-! ## The three kinds of line -/

lemma flag_cell_cases (m : cpu_set_t) (i : Nat) :
    pad_left 3 (flag_text m i) ++ "|" = (if m.bits.testBit i then "  1|" else "  0|") := by
  unfold flag_text
  by_cases h : m.bits.testBit i = true
  · simp only [h, if_true]; decide
  · simp only [h]; decide

lemma flag_cell_length (m : cpu_set_t) (i : Nat) :
    (pad_left 3 (flag_text m i) ++ "|").length = 4 := by
  rw [flag_cell_cases]; split <;> rfl

lemma dec_text_nat (i : Nat) : dec_text (i : Int) = Nat.repr i := by
  unfold dec_text
  rw [if_neg (by omega)]
  simp

lemma index_cell_length (i : Nat) (hi : i ≤ 999) : (fmt_3d (i : Int) ++ "|").length = 4 := by
  unfold fmt_3d
  rw [String.length_append, dec_text_nat,
    pad_left_length _ (Nat.repr_length i 3 (by decide) (by omega))]
  rfl

lemma index_cell_bar (i : Nat) (hi : i ≤ 999) : (fmt_3d (i : Int) ++ "|").data[3]? = some '|' := by
  have h3 : (fmt_3d (i : Int)).data.length = 3 := by
    unfold fmt_3d
    rw [dec_text_nat]
    exact pad_left_length _ (Nat.repr_length i 3 (by decide) (by omega))
  rw [String.data_append, List.getElem?_append_right (by omega), h3]
  rfl

lemma ruler_line_length (n : Nat) : (ruler_line n).length = 8 + 4 * n := by
  unfold ruler_line
  rw [line_length "       +" _ rfl (fun c hc => by rw [List.eq_of_mem_replicate hc]; rfl),
    List.length_replicate]

lemma cpumask_line_length (m : cpu_set_t) (n : Nat) : (cpumask_line m n).length = 8 + 4 * n := by
  unfold cpumask_line
  rw [line_length "cpumask|" _ rfl (fun c hc => by
    obtain ⟨i, _, rfl⟩ := List.mem_map.1 hc
    exact flag_cell_length m i), List.length_map, descending_length]

lemma index_cells_four (n : Nat) (hn : n ≤ 1000) :
    ∀ c ∈ (descending n).map (fun (i : Nat) => fmt_3d (i : Int) ++ "|"), c.length = 4 := by
  intro c hc
  obtain ⟨i, hi, rfl⟩ := List.mem_map.1 hc
  have := (mem_descending n i).1 hi
  exact index_cell_length i (by omega)

lemma core_line_length (n : Nat) (hn : n ≤ 1000) : (core_line n).length = 8 + 4 * n := by
  unfold core_line
  rw [line_length "core#  |" _ rfl (index_cells_four n hn), List.length_map, descending_length]

/-- The flag of core `i` is the third character of the cell of core `i`, which is cell
`n - 1 - i` of the row. -/
lemma cpumask_line_flag (m : cpu_set_t) (n i : Nat) (hi : i < n) :
    (cpumask_line m n).data[8 + 4 * (n - 1 - i) + 2]?
      = some (if m.bits.testBit i then '1' else '0') := by
  unfold cpumask_line
  have hc : ((descending n).map (fun i => pad_left 3 (flag_text m i) ++ "|"))[n - 1 - i]?
      = some (pad_left 3 (flag_text m i) ++ "|") := by
    rw [List.getElem?_map, descending_get n (n - 1 - i) (by omega)]
    simp only [Option.map_some']
    rw [show n - 1 - (n - 1 - i) = i by omega]
  rw [line_get_cell "cpumask|" _ rfl (fun c hc => by
    obtain ⟨i, _, rfl⟩ := List.mem_map.1 hc
    exact flag_cell_length m i) _ 2 _ hc (by omega), flag_cell_cases]
  split <;> rfl

/-- Every `+` of the ruler stands at column `7 + 4 * j` for some `j ≤ n`. -/
lemma ruler_plus_column (n p : Nat) (h : (ruler_line n).data[p]? = some '+') :
    p = 7 ∨ ∃ j, j < n ∧ p = 8 + 4 * j + 3 := by
  have h4 : ∀ c ∈ List.replicate n "---+", c.length = 4 :=
    fun c hc => by rw [List.eq_of_mem_replicate hc]; rfl
  have hlen : p < 8 + 4 * n := by
    have h1 := ruler_line_length n
    have h2 : p < (ruler_line n).data.length := by
      by_contra hge
      rw [List.getElem?_eq_none (by omega)] at h
      exact Option.noConfusion h
    exact h1 ▸ h2
  unfold ruler_line at h
  by_cases hp : p < 8
  · rw [line_get_label "       +" _ rfl p hp] at h
    left
    interval_cases p <;> first | rfl | (exfalso; revert h; decide)
  · right
    refine ⟨(p - 8) / 4, by omega, ?_⟩
    have hc : (List.replicate n "---+")[(p - 8) / 4]? = some "---+" := by
      rw [List.getElem?_replicate]
      rw [if_pos (by omega)]
    have hpe : p = 8 + 4 * ((p - 8) / 4) + (p - 8) % 4 := by omega
    rw [hpe, line_get_cell "       +" _ rfl h4 _ _ _ hc (by omega)] at h
    have hr : (p - 8) % 4 < 4 := by omega
    have : (p - 8) % 4 = 3 := by
      generalize (p - 8) % 4 = r at h hr
      interval_cases r <;> first | rfl | (exfalso; revert h; decide)
    omega

lemma core_line_bar (n p : Nat) (hn : n ≤ 1000)
    (hp : p = 7 ∨ ∃ j, j < n ∧ p = 8 + 4 * j + 3) : (core_line n).data[p]? = some '|' := by
  unfold core_line
  rcases hp with rfl | ⟨j, hj, rfl⟩
  · rw [line_get_label "core#  |" _ rfl 7 (by omega)]; rfl
  · have hc : ((descending n).map (fun (i : Nat) => fmt_3d (i : Int) ++ "|"))[j]?
        = some (fmt_3d ((n - 1 - j : Nat) : Int) ++ "|") := by
      rw [List.getElem?_map, descending_get n j hj]
      rfl
    rw [line_get_cell "core#  |" _ rfl (index_cells_four n hn) j 3 _ hc (by omega)]
    exact index_cell_bar _ (by omega)

lemma cpumask_line_bar (m : cpu_set_t) (n p : Nat)
    (hp : p = 7 ∨ ∃ j, j < n ∧ p = 8 + 4 * j + 3) : (cpumask_line m n).data[p]? = some '|' := by
  unfold cpumask_line
  rcases hp with rfl | ⟨j, hj, rfl⟩
  · rw [line_get_label "cpumask|" _ rfl 7 (by omega)]; rfl
  · have hc : ((descending n).map (fun i => pad_left 3 (flag_text m i) ++ "|"))[j]?
        = some (pad_left 3 (flag_text m (n - 1 - j)) ++ "|") := by
      rw [List.getElem?_map, descending_get n j hj]
      rfl
    rw [line_get_cell "cpumask|" _ rfl (fun c hc => by
      obtain ⟨i, _, rfl⟩ := List.mem_map.1 hc
      exact flag_cell_length m i) j 3 _ hc (by omega), flag_cell_cases]
    split <;> rfl

lemma render_table_eq (m : cpu_set_t) (n fuel : Nat) (hn : n ≤ 1000) (hf : 4 * n < fuel) :
    render_table fuel m n = some (ruler_line n ++ "\n" ++ (core_line n ++ "\n")
      ++ (ruler_line n ++ "\n") ++ (cpumask_line m n ++ "\n") ++ (ruler_line n ++ "\n")) := by
  unfold render_table
  rw [print_ruler_line_eq n fuel (by omega) hf, core_row_eq n fuel (by omega) (by omega),
    cpumask_row_eq m n fuel (by omega) (by omega)]
  rfl

/-! ## The renderer: the claims -/

/-- C1: for every core count `n > 0` and every mask, the row of flags printed by
`disp_cpumask` is the label `cpumask|` followed, for `i = n - 1` down to `0`, by the
flag of core `i` right-aligned in 3 characters and a bar; the flag shown in the column
of core `i` (character 2 of cell `n - 1 - i`) is `1` when bit `i` is stored and `0`
otherwise.  The core count is the `int` that `get_nprocs()` returns, which `main`
stores in `numcores` and hands to `disp_cpumask`: the bound on `n` is the range of
`int`. -/
theorem cpumask_row_shows_stored_bits (m : cpu_set_t) (n fuel : Nat)
    (hn : n ≤ 2147483647) (hf : n < fuel) :
    cpumask_row fuel m n = some (cpumask_line m n ++ "\n") ∧
    ∀ i, i < n → (cpumask_line m n).data[8 + 4 * (n - 1 - i) + 2]?
      = some (if m.bits.testBit i then '1' else '0') :=
  ⟨cpumask_row_eq m n fuel (by omega) hf, fun i hi => cpumask_line_flag m n i hi⟩

/-- C1, the scenario of the specification: with 4 cores and a mask holding core 0
only, the row is `cpumask|  0|  0|  0|  1|`. -/
theorem cpumask_row_shows_stored_bits_witness :
    (4 ≤ 2147483647 ∧ 4 < 5) ∧
    cpumask_row 5 only_core0 4 = some "cpumask|  0|  0|  0|  1|\n" :=
  ⟨by decide,
    (cpumask_row_shows_stored_bits only_core0 4 5 (by decide) (by decide)).1.trans
      (by decide)⟩

/-- C2: for every valid core count `n > 0` (one that fits the `int` that the core
count is detected as), whatever the mask, the row of core indices printed by
`disp_cpumask` is the label `core#  |` followed by the cells of the indices
`n - 1, n - 2, ..., 0` left to right: there are `n` entries, entry `k` is `n - 1 - k`,
so the order is strictly descending, each index below `n` occurs, and none twice. -/
theorem core_row_lists_descending (n fuel : Nat) (hn : n ≤ 2147483647) (hf : n < fuel) :
    core_row fuel n = some (core_line n ++ "\n") ∧
    (descending n).length = n ∧
    (∀ k, k < n → (descending n)[k]? = some (n - 1 - k)) ∧
    (descending n).Sorted (fun a b => a > b) ∧
    (descending n).Nodup ∧
    (∀ i, i ∈ descending n ↔ i < n) := by
  refine ⟨core_row_eq n fuel (by omega) hf, descending_length n,
    fun k hk => descending_get n k hk, ?_, ?_, mem_descending n⟩
  · unfold descending
    rw [List.Sorted, List.pairwise_reverse]
    exact List.pairwise_lt_range n
  · unfold descending
    exact List.nodup_reverse.2 (List.nodup_range n)

/-- C2 on 4 cores: the row is `core#  |  3|  2|  1|  0|`. -/
theorem core_row_lists_descending_witness :
    (4 ≤ 2147483647 ∧ 4 < 5) ∧
    core_row 5 4 = some "core#  |  3|  2|  1|  0|\n" ∧ descending 4 = [3, 2, 1, 0] :=
  ⟨by decide,
    (core_row_lists_descending 4 5 (by decide) (by decide)).1.trans (by decide),
    by decide⟩

/-- C9: for every core count `n` from 1 to 1000 and every mask, each ruler line, the
row of indices and the row of flags printed by `disp_cpumask` have the same length
`8 + 4 * n` (a label of 8 characters and `n` cells of 4), the ruler is `       +`
followed by `n` copies of `---+`, and every `+` of the ruler stands in the column of a
bar of the row of indices and of the row of flags. -/
theorem table_rows_aligned (m : cpu_set_t) (n fuel : Nat) (hn : n ≤ 1000)
    (hf : 4 * n < fuel) :
    print_ruler_line fuel n = some (ruler_line n ++ "\n") ∧
    core_row fuel n = some (core_line n ++ "\n") ∧
    cpumask_row fuel m n = some (cpumask_line m n ++ "\n") ∧
    render_table fuel m n = some (ruler_line n ++ "\n" ++ (core_line n ++ "\n")
      ++ (ruler_line n ++ "\n") ++ (cpumask_line m n ++ "\n") ++ (ruler_line n ++ "\n")) ∧
    (ruler_line n).length = 8 + 4 * n ∧
    (core_line n).length = 8 + 4 * n ∧
    (cpumask_line m n).length = 8 + 4 * n ∧
    (∀ i, i < n → (fmt_3d (i : Int) ++ "|").length = 4 ∧
      (pad_left 3 (flag_text m i) ++ "|").length = 4) ∧
    (∀ p : Nat, (ruler_line n).data[p]? = some '+' →
      (core_line n).data[p]? = some '|' ∧ (cpumask_line m n).data[p]? = some '|') :=
  ⟨print_ruler_line_eq n fuel (by omega) hf, core_row_eq n fuel (by omega) (by omega),
    cpumask_row_eq m n fuel (by omega) (by omega), render_table_eq m n fuel hn hf,
    ruler_line_length n, core_line_length n hn, cpumask_line_length m n,
    fun i hi => ⟨index_cell_length i (by omega), flag_cell_length m i⟩,
    fun p hp => ⟨core_line_bar n p hn (ruler_plus_column n p hp),
      cpumask_line_bar m n p (ruler_plus_column n p hp)⟩⟩

/-- C9 on 4 cores with cores 0 and 1 in the mask: the five lines of the table. -/
theorem table_rows_aligned_witness :
    (4 ≤ 1000 ∧ 4 * 4 < 17) ∧
    render_table 17 (CPU_SET 1 only_core0) 4 = some
      ("       +---+---+---+---+\n" ++ "core#  |  3|  2|  1|  0|\n" ++
       "       +---+---+---+---+\n" ++ "cpumask|  0|  0|  1|  1|\n" ++
       "       +---+---+---+---+\n") :=
  ⟨by decide,
    (table_rows_aligned (CPU_SET 1 only_core0) 4 17 (by decide)
      (by decide)).2.2.2.1.trans (by decide)⟩

/-! ## Construction of the mask -/

lemma shift_test (B k : Nat) : ((B >>> k) &&& 1 ≠ 0) ↔ B.testBit k = true := by
  unfold Nat.testBit
  rw [Nat.land_comm]
  simp

lemma CPU_SET_bits (k : Nat) (hk : k < CPU_SETSIZE) (set : cpu_set_t) :
    (CPU_SET (k : Int) set).bits = set.bits ||| 2 ^ k := by
  unfold CPU_SET
  rw [dif_pos ⟨by omega, by simpa using hk⟩]
  simp

/-- The loop of `set_cpu_affinity` started at position `k` with `m` positions to go:
it returns at position `w`, having added to the set exactly the positions between `k`
and `w` whose bit is 1 in `B`, with one shift per position. -/
lemma build_loop (w : Nat) (szl : Nat) (hw : w = 8 * szl) (hs : szl = 4 ∨ szl = 8) (B : Nat) :
    ∀ (m k fuel : Nat) (st : MaskState), k + m = w → m < fuel → st.i = (k : Int) →
      ∃ r, forLoop
          (fun (st : MaskState) => decide ((st.i % 2 ^ (8 * szl)).toNat < szl * 8))
          (fun (st : MaskState) =>
            if (B >>> st.i.toNat) &&& 1 ≠ 0 then
              ⟨to_int (st.i + 1), CPU_SET st.i st.cpumask, st.shifts ++ [st.i],
                st.cpus ++ [st.i]⟩
            else
              ⟨to_int (st.i + 1), st.cpumask, st.shifts ++ [st.i], st.cpus⟩)
          fuel st = some r ∧
        r.i = (w : Int) ∧
        (∀ j, r.cpumask.bits.testBit j
          = (st.cpumask.bits.testBit j || (decide (k ≤ j ∧ j < w) && B.testBit j))) ∧
        r.shifts = st.shifts ++ (List.range' k m).map (fun (x : Nat) => (x : Int)) ∧
        r.cpus = st.cpus ++ ((List.range' k m).filter (fun x => B.testBit x)).map
          (fun (x : Nat) => (x : Int)) := by
  have hw64 : w = 32 ∨ w = 64 := by omega
  have hpow : (4294967296 : Int) ≤ 2 ^ (8 * szl) := by
    rcases hs with rfl | rfl <;> norm_num
  intro m
  induction m with
  | zero =>
    intro k fuel st hk hf hi
    obtain ⟨f, rfl⟩ : ∃ f, fuel = f + 1 := ⟨fuel - 1, by omega⟩
    refine ⟨st, ?_, ?_, ?_, ?_, ?_⟩
    · rw [forLoop_succ, if_neg]
      simp only [decide_eq_true_eq, hi]
      rw [Int.emod_eq_of_lt (by omega) (by omega)]
      omega
    · rw [hi]; congr 1
    · intro j
      have : ¬ (k ≤ j ∧ j < w) := by omega
      simp [this]
    · simp
    · simp
  | succ m ih =>
    intro k fuel st hk hf hi
    obtain ⟨f, rfl⟩ : ∃ f, fuel = f + 1 := ⟨fuel - 1, by omega⟩
    have hc : decide ((st.i % 2 ^ (8 * szl)).toNat < szl * 8) = true := by
      simp only [decide_eq_true_eq, hi]
      rw [Int.emod_eq_of_lt (by omega) (by omega)]
      omega
    have hnext : to_int (st.i + 1) = ((k + 1 : Nat) : Int) := by
      rw [hi, to_int_of_range] <;> push_cast <;> omega
    rw [forLoop_succ]
    simp only [hc, if_true]
    have htn : st.i.toNat = k := by rw [hi]; simp
    by_cases hb : B.testBit k = true
    · have hsh : (B >>> st.i.toNat) &&& 1 ≠ 0 := by rw [htn]; exact (shift_test B k).2 hb
      rw [if_pos hsh]
      obtain ⟨r, hr, h1, h2, h3, h4⟩ := ih (k + 1) f
        ⟨to_int (st.i + 1), CPU_SET st.i st.cpumask, st.shifts ++ [st.i], st.cpus ++ [st.i]⟩
        (by omega) (by omega) hnext
      refine ⟨r, hr, h1, ?_, ?_, ?_⟩
      · intro j
        rw [h2 j]
        simp only [hi]
        rw [CPU_SET_bits k (by unfold CPU_SETSIZE; omega), Nat.testBit_or, Nat.testBit_two_pow]
        by_cases hjk : k = j
        · subst hjk
          have : k < w := by omega
          simp [hb, this]
        · have e1 : (decide (k + 1 ≤ j ∧ j < w)) = decide (k ≤ j ∧ j < w) := by
            apply decide_eq_decide.2; omega
          simp [hjk, e1]
      · rw [h3, hi, List.range'_succ]
        simp
      · rw [h4, hi, List.range'_succ, List.filter_cons_of_pos (by simpa using hb)]
        simp
    · have hsh : ¬ ((B >>> st.i.toNat) &&& 1 ≠ 0) := by
        rw [htn]; exact fun h => hb ((shift_test B k).1 h)
      rw [if_neg hsh]
      obtain ⟨r, hr, h1, h2, h3, h4⟩ := ih (k + 1) f
        ⟨to_int (st.i + 1), st.cpumask, st.shifts ++ [st.i], st.cpus⟩
        (by omega) (by omega) hnext
      refine ⟨r, hr, h1, ?_, ?_, ?_⟩
      · intro j
        rw [h2 j]
        by_cases hjk : k = j
        · subst hjk
          have hb2 : B.testBit k = false := by simpa using hb
          simp [hb2]
        · have e1 : (decide (k + 1 ≤ j ∧ j < w)) = decide (k ≤ j ∧ j < w) := by
            apply decide_eq_decide.2; omega
          simp [e1]
      · rw [h3, hi, List.range'_succ]
        simp
      · rw [h4, List.range'_succ, List.filter_cons_of_neg (by simpa using hb)]

/-- The loop of `set_cpu_affinity` run from its start: the state it returns. -/
lemma build_cpumask_spec (szl : Nat) (hs : szl = 4 ∨ szl = 8) (B fuel : Nat)
    (hf : 8 * szl < fuel) :
    ∃ st, build_cpumask szl fuel B = some st ∧
      st.i = ((8 * szl : Nat) : Int) ∧
      (∀ j, st.cpumask.bits.testBit j = (decide (j < 8 * szl) && B.testBit j)) ∧
      st.shifts = (List.range (8 * szl)).map (fun (x : Nat) => (x : Int)) ∧
      st.cpus = ((List.range (8 * szl)).filter (fun x => B.testBit x)).map
        (fun (x : Nat) => (x : Int)) := by
  obtain ⟨r, hr, h1, h2, h3, h4⟩ := build_loop (8 * szl) szl rfl hs B (8 * szl) 0 fuel
    ⟨0, CPU_ZERO, [], []⟩ (by omega) hf rfl
  refine ⟨r, hr, h1, ?_, ?_, ?_⟩
  · intro j
    rw [h2 j]
    simp [CPU_ZERO]
  · rw [h3, List.range_eq_range']; simp
  · rw [h4, List.range_eq_range']; simp

/-! ## Construction of the mask: the claims -/

/-- C3: for every `unsigned long` bitfield `B` (4 or 8 bytes wide), the set that
`set_cpu_affinity` builds with `CPU_ZERO` and its loop of `CPU_SET` calls stores exactly
the bits of `B`: for every position `i` below the capacity of the set, reading back the
membership of core `i` gives 1 if and only if bit `i` of `B` is 1. -/
theorem build_cpumask_round_trip (szl : Nat) (hs : szl = 4 ∨ szl = 8) (B fuel : Nat)
    (hB : B < 2 ^ (8 * szl)) (hf : 8 * szl < fuel) :
    ∃ st, build_cpumask szl fuel B = some st ∧
      st.cpumask.bits = B ∧
      ∀ i, i < CPU_SETSIZE → (CPU_ISSET (i : Int) st.cpumask = 1 ↔ B.testBit i = true) := by
  obtain ⟨st, hst, _, h2, _, _⟩ := build_cpumask_spec szl hs B fuel hf
  have hbits : ∀ j, st.cpumask.bits.testBit j = B.testBit j := by
    intro j
    rw [h2 j]
    by_cases hj : j < 8 * szl
    · simp [hj]
    · have : B.testBit j = false :=
        Nat.testBit_lt_two_pow (lt_of_lt_of_le hB (Nat.pow_le_pow_right (by decide) (by omega)))
      simp [hj, this]
  refine ⟨st, hst, Nat.eq_of_testBit_eq hbits, ?_⟩
  intro i _
  rw [CPU_ISSET_nat, hbits i]
  by_cases hb : B.testBit i = true
  · simp [hb]
  · simp [hb]

/-- C3 on a 64-bit `unsigned long` holding `0b101`. -/
theorem build_cpumask_round_trip_witness :
    ((8 = 4 ∨ 8 = 8) ∧ 5 < 2 ^ (8 * 8) ∧ 8 * 8 < 65) ∧
    ∃ st, build_cpumask 8 65 5 = some st ∧
      st.cpumask.bits = 5 ∧
      ∀ i, i < CPU_SETSIZE → (CPU_ISSET (i : Int) st.cpumask = 1 ↔ Nat.testBit 5 i = true) :=
  ⟨by decide, build_cpumask_round_trip 8 (Or.inr rfl) 5 65 (by decide) (by decide)⟩

/-- C10: for every bitmask, on a platform whose `unsigned long` has 4 or 8 bytes, the
loop of `set_cpu_affinity` terminates after exactly `8 * sizeof(unsigned long)`
iterations, counter at `8 * sizeof(unsigned long)`; the shift counts it evaluates are
`0, 1, ..., 8 * sizeof(unsigned long) - 1`, each below the width of `unsigned long`;
every index it passes to `CPU_SET` is at least 0, below `8 * sizeof(unsigned long)` and
so below the capacity 1024, and `CPU_SET` takes its in-range branch there. -/
theorem build_cpumask_positions_bounded (szl : Nat) (hs : szl = 4 ∨ szl = 8) (B fuel : Nat)
    (hf : 8 * szl < fuel) :
    8 * szl ≤ CPU_SETSIZE ∧
    ∃ st, build_cpumask szl fuel B = some st ∧
      st.i = ((8 * szl : Nat) : Int) ∧
      st.shifts = (List.range (8 * szl)).map (fun (x : Nat) => (x : Int)) ∧
      st.shifts.length = 8 * szl ∧
      (∀ c ∈ st.shifts, 0 ≤ c ∧ c < ((8 * szl : Nat) : Int)) ∧
      (∀ c ∈ st.cpus, 0 ≤ c ∧ c < ((8 * szl : Nat) : Int) ∧ c.toNat < CPU_SETSIZE) ∧
      (∀ c ∈ st.cpus, ∀ set : cpu_set_t, (CPU_SET c set).bits = set.bits ||| 2 ^ c.toNat) := by
  have hcap : 8 * szl ≤ CPU_SETSIZE := by unfold CPU_SETSIZE; omega
  obtain ⟨st, hst, h1, _, h3, h4⟩ := build_cpumask_spec szl hs B fuel hf
  have hcpus : ∀ c ∈ st.cpus, 0 ≤ c ∧ c < ((8 * szl : Nat) : Int) ∧ c.toNat < CPU_SETSIZE := by
    intro c hc
    rw [h4] at hc
    obtain ⟨x, hx, rfl⟩ := List.mem_map.1 hc
    have hx2 : x < 8 * szl := List.mem_range.1 (List.mem_filter.1 hx).1
    refine ⟨by omega, by omega, ?_⟩
    simp only [Int.toNat_ofNat]
    omega
  refine ⟨hcap, st, hst, h1, h3, by rw [h3]; simp, ?_, hcpus, ?_⟩
  · intro c hc
    rw [h3] at hc
    obtain ⟨x, hx, rfl⟩ := List.mem_map.1 hc
    have hx2 : x < 8 * szl := List.mem_range.1 hx
    omega
  · intro c hc set
    obtain ⟨c0, _, c2⟩ := hcpus c hc
    obtain ⟨x, rfl⟩ := Int.eq_ofNat_of_zero_le c0
    rw [CPU_SET_bits x (by simpa using c2)]
    simp

/-- C10 on a 64-bit `unsigned long` holding `0b101`. -/
theorem build_cpumask_positions_bounded_witness :
    ((8 = 4 ∨ 8 = 8) ∧ 8 * 8 < 65) ∧
    (build_cpumask 8 65 5).map (fun st => (st.i, st.shifts.length, st.cpus))
      = some (64, 64, [0, 2]) := by
  refine ⟨by decide, ?_⟩
  obtain ⟨_, st, hst, h1, _, h3, _⟩ :=
    build_cpumask_positions_bounded 8 (Or.inr rfl) 5 65 (by decide)
  have hd : (build_cpumask 8 65 5).map (fun st => st.cpus) = some [0, 2] := by decide
  rw [hst] at hd ⊢
  simp only [Option.map_some', Option.some.injEq] at hd ⊢
  rw [h1, h3, hd]
  rfl

/-! ## Termination of the renderer on every input -/

lemma print_ruler_line_total (len fuel : Nat) (hf : 4294967296 < fuel) :
    ∃ t, print_ruler_line fuel len = some t := by
  unfold print_ruler_line
  obtain ⟨r, hr⟩ := forLoop_terminates
    (fun (st : RowState) => decide (to_uint st.i ≤ (len * 4) % 4294967296))
    (fun (st : RowState) => ⟨to_int (st.i + 1),
      st.out ++ (if Int.tmod st.i 4 = 0 then "+" else "-")⟩)
    (fun st => 4294967296 - to_uint st.i)
    (by
      intro st hc
      simp only [decide_eq_true_eq] at hc
      simp only
      unfold to_uint to_int at *
      omega)
    fuel ⟨1, "       +"⟩ (by simp only; omega)
  rw [hr]
  exact ⟨_, rfl⟩

lemma row_loop_total (cell : Int → String) (fuel : Nat) (i : Int) (out : String)
    (hi : i < 2147483648) (hf : 4294967296 < fuel) :
    ∃ r, forLoop (fun (st : RowState) => decide (0 ≤ st.i))
        (fun (st : RowState) => ⟨to_int (st.i - 1), st.out ++ (cell st.i ++ "|")⟩)
        fuel ⟨i, out⟩ = some r :=
  forLoop_terminates _ _ (fun st => (st.i + 1).toNat)
    (by
      intro st hc
      simp only [decide_eq_true_eq] at hc
      simp only
      unfold to_int
      omega)
    fuel ⟨i, out⟩ (by simp only; omega)

lemma core_row_total (n fuel : Nat) (hf : 4294967296 < fuel) :
    ∃ t, core_row fuel n = some t := by
  unfold core_row
  obtain ⟨r, hr⟩ := row_loop_total fmt_3d fuel (to_int (to_uint ((n : Int) - 1))) "core#  |"
    (to_int_range _).2 hf
  rw [hr]
  exact ⟨_, rfl⟩

lemma cpumask_row_total (m : cpu_set_t) (n fuel : Nat) (hf : 4294967296 < fuel) :
    ∃ t, cpumask_row fuel m n = some t := by
  unfold cpumask_row
  obtain ⟨r, hr⟩ := row_loop_total (fun i => fmt_3u (CPU_ISSET i m)) fuel
    (to_int (to_uint ((n : Int) - 1))) "cpumask|" (to_int_range _).2 hf
  rw [hr]
  exact ⟨_, rfl⟩

/-- The table is rendered for every mask and every core count once the fuel exceeds
`2^32`. -/
lemma render_table_total (m : cpu_set_t) (n fuel : Nat) (hf : 4294967296 < fuel) :
    ∃ t, render_table fuel m n = some t := by
  obtain ⟨r, hr⟩ := print_ruler_line_total n fuel hf
  obtain ⟨c, hc⟩ := core_row_total n fuel hf
  obtain ⟨f, hfl⟩ := cpumask_row_total m n fuel hf
  unfold render_table
  rw [hr, hc, hfl]
  exact ⟨_, rfl⟩

/-! ## The driver -/

/-- Translation of `disp_cpumask` run with enough fuel: it leaves `numcores` alone and
appends events that hold no affinity call and end with the table rendered for the
mask and core count it was given. -/
lemma disp_cpumask_spec {σ : Type} (os : OS σ) (fuel : Nat) (pid : Int) (m : cpu_set_t)
    (n : Nat) (p : Proc σ) (hf : 4294967296 < fuel) :
    ∃ p2, disp_cpumask os fuel pid m n p = some p2 ∧
      p2.numcores = p.numcores ∧
      ∃ ev, p2.trace = p.trace ++ ev ∧ affinity_calls ev = [] ∧
        ∃ t, render_table fuel m n = some t ∧ ev.getLast? = some (Event.stdout t) := by
  obtain ⟨t, ht⟩ := render_table_total m n fuel hf
  unfold disp_cpumask
  rw [ht]
  simp only [Option.map_some', Proc.emit]
  split
  · refine ⟨_, rfl, rfl, _, by simp only [List.append_assoc]; rfl, ?_, t, rfl, ?_⟩
    · simp [affinity_calls, Event.is_affinity_call]
    · simp
  · refine ⟨_, rfl, rfl, _, by simp only [List.append_assoc]; rfl, ?_, t, rfl, ?_⟩
    · simp [affinity_calls, Event.is_affinity_call]
    · simp

/-- Translation of `query_cpu_affinity` run with enough fuel: one call of
`sched_getaffinity` on `pid`, then either the error report or the table rendered for
the mask that the call reported. -/
lemma query_cpu_affinity_spec {σ : Type} (os : OS σ) (fuel : Nat) (pid : Int) (p : Proc σ)
    (hf : 4294967296 < fuel) :
    ∃ r, query_cpu_affinity os fuel pid p = some r ∧
      r.2.numcores = p.numcores ∧
      ∃ ev, r.2.trace = p.trace ++ Event.sched_getaffinity pid
            (os.sched_getaffinity pid sizeof_cpu_set_t CPU_ZERO p.world).1
            (os.sched_getaffinity pid sizeof_cpu_set_t CPU_ZERO p.world).2.1 :: ev ∧
        affinity_calls ev = [] ∧
        ((os.sched_getaffinity pid sizeof_cpu_set_t CPU_ZERO p.world).1 < 0 →
          r.1 = -1 ∧ ev = [Event.perror "sched_getaffinity() failed"]) ∧
        (¬ (os.sched_getaffinity pid sizeof_cpu_set_t CPU_ZERO p.world).1 < 0 →
          r.1 = 0 ∧ ∃ t, render_table fuel
              (os.sched_getaffinity pid sizeof_cpu_set_t CPU_ZERO p.world).2.1 p.numcores
              = some t ∧ ev.getLast? = some (Event.stdout t)) := by
  unfold query_cpu_affinity
  simp only
  split
  · rename_i hneg
    refine ⟨_, rfl, rfl, _, by simp only [Proc.emit, List.append_assoc]; rfl, ?_,
      fun _ => ⟨rfl, rfl⟩, fun h => absurd hneg h⟩
    simp [affinity_calls, Event.is_affinity_call]
  · rename_i hpos
    obtain ⟨p2, hp2, hnc, ev, htr, haff, t, ht, hlast⟩ := disp_cpumask_spec os fuel pid
      (os.sched_getaffinity pid sizeof_cpu_set_t CPU_ZERO p.world).2.1 p.numcores
      { p with world := (os.sched_getaffinity pid sizeof_cpu_set_t CPU_ZERO p.world).2.2,
               trace := p.trace ++ [Event.sched_getaffinity pid
                  (os.sched_getaffinity pid sizeof_cpu_set_t CPU_ZERO p.world).1
                  (os.sched_getaffinity pid sizeof_cpu_set_t CPU_ZERO p.world).2.1] } hf
    rw [hp2]
    refine ⟨_, rfl, hnc, ev, ?_, haff, fun h => absurd h hpos, fun _ => ⟨rfl, t, ht, hlast⟩⟩
    simp only [Option.map_some'] at htr ⊢
    rw [htr]
    simp

/-- Translation of `set_cpu_affinity` run with enough fuel: the mask is built from the
bitfield, `sched_setaffinity` is called once on `pid` with it, then comes either the
error report or the table rendered for the mask just built. -/
lemma set_cpu_affinity_spec {σ : Type} (os : OS σ) (szl : Nat) (hs : szl = 4 ∨ szl = 8)
    (fuel : Nat) (pid : Int) (B : Nat) (p : Proc σ) (hf : 4294967296 < fuel) :
    ∃ st, build_cpumask szl fuel B = some st ∧
      ∃ r, set_cpu_affinity os szl fuel pid B p = some r ∧
      ∃ ev, r.2.trace = p.trace ++
          Event.stdout ("\nSetting CPU affinity mask for PID " ++ fmt_d pid ++ " now...\n") ::
          Event.sched_setaffinity pid st.cpumask
            (os.sched_setaffinity pid sizeof_cpu_set_t st.cpumask p.world).1 :: ev ∧
        affinity_calls ev = [] ∧
        ((os.sched_setaffinity pid sizeof_cpu_set_t st.cpumask p.world).1 < 0 →
          r.1 = -1 ∧ ev = [Event.perror "sched_setaffinity() failed"]) ∧
        (¬ (os.sched_setaffinity pid sizeof_cpu_set_t st.cpumask p.world).1 < 0 →
          r.1 = 0 ∧ ∃ t, render_table fuel st.cpumask p.numcores = some t ∧
            ev.getLast? = some (Event.stdout t)) := by
  obtain ⟨st, hst, _⟩ := build_cpumask_spec szl hs B fuel (by omega)
  refine ⟨st, hst, ?_⟩
  unfold set_cpu_affinity
  rw [hst]
  simp only [Option.some_bind, Proc.emit]
  split
  · rename_i hneg
    refine ⟨_, rfl, _, by simp only [Proc.emit, List.append_assoc]; rfl, ?_,
      fun _ => ⟨rfl, rfl⟩, fun h => absurd hneg h⟩
    simp [affinity_calls, Event.is_affinity_call]
  · rename_i hpos
    obtain ⟨p2, hp2, _, ev, htr, haff, t, ht, hlast⟩ := disp_cpumask_spec os fuel pid
      st.cpumask p.numcores
      { world := (os.sched_setaffinity pid sizeof_cpu_set_t st.cpumask p.world).2,
        numcores := p.numcores,
        trace := p.trace ++ [Event.stdout
            ("\nSetting CPU affinity mask for PID " ++ fmt_d pid ++ " now...\n")] ++
          [Event.sched_setaffinity pid st.cpumask
            (os.sched_setaffinity pid sizeof_cpu_set_t st.cpumask p.world).1] } hf
    rw [hp2]
    refine ⟨_, rfl, ev, ?_, haff, fun h => absurd h hpos, fun _ => ⟨rfl, t, ht, hlast⟩⟩
    simp only [Option.map_some'] at htr ⊢
    rw [htr]
    simp

/-- A run of `main` without help request, with enough fuel: it exits with status 0
after the events below.  `qev` are the events of the initial Query after its system
call, `sev` the events of the Set step. -/
lemma main_run {σ : Type} (os : OS σ) (szl : Nat) (hs : szl = 4 ∨ szl = 8) (fuel : Nat)
    (hf : 4294967296 < fuel) (argv : List String) (w : σ)
    (hnh : ¬ (argv.length > 1 ∧ help_requested (argv.getD 1 "") = true)) :
    ∃ r, main os szl fuel argv w = some (0, r) ∧
      ∃ qev sev, r.trace =
          Event.getpid (os.getpid w).1 ::
          Event.get_nprocs (os.get_nprocs (os.getpid w).2).1 ::
          Event.stdout ("Detected " ++ fmt_d (to_int (detected_cores os w))
            ++ " CPU cores system-wide\n") ::
          Event.sched_getaffinity (target_of os szl argv w)
            (initial_query os szl argv w).1 (initial_query os szl argv w).2.1 ::
          (qev ++ sev) ∧
        affinity_calls qev = [] ∧
        ((initial_query os szl argv w).1 < 0 →
          qev = [Event.perror "sched_getaffinity() failed"]) ∧
        (¬ (initial_query os szl argv w).1 < 0 →
          ∃ t, render_table fuel (initial_query os szl argv w).2.1 (detected_cores os w)
            = some t ∧ qev.getLast? = some (Event.stdout t)) ∧
        (argv.length ≠ 3 → sev = []) ∧
        (argv.length = 3 →
          ∃ st sret dev, build_cpumask szl fuel (strtoul szl (argv.getD 2 "") 0) = some st ∧
            sev = Event.stdout ("\nSetting CPU affinity mask for PID "
                ++ fmt_d (target_of os szl argv w) ++ " now...\n") ::
              Event.sched_setaffinity (target_of os szl argv w) st.cpumask sret :: dev ∧
            affinity_calls dev = [] ∧
            (sret < 0 → dev = [Event.perror "sched_setaffinity() failed"]) ∧
            (¬ sret < 0 → ∃ t, render_table fuel st.cpumask (detected_cores os w) = some t ∧
              dev.getLast? = some (Event.stdout t))) := by
  unfold main
  simp only
  rw [if_neg hnh]
  obtain ⟨q, hq, hqn, qev, hqtr, hqaff, hqneg, hqpos⟩ := query_cpu_affinity_spec os fuel
    (if argv.length ≥ 2 then atoi szl (argv.getD 1 "") else (os.getpid w).1)
    (Proc.emit ⟨(os.get_nprocs (os.getpid w).2).2, to_uint (os.get_nprocs (os.getpid w).2).1,
        [Event.getpid (os.getpid w).1] ++ [Event.get_nprocs (os.get_nprocs (os.getpid w).2).1]⟩
      (Event.stdout ("Detected " ++ fmt_d (to_int (to_uint (os.get_nprocs (os.getpid w).2).1))
        ++ " CPU cores system-wide\n"))) hf
  rw [hq]
  simp only [Option.some_bind]
  by_cases h3 : argv.length = 3
  · rw [if_pos h3]
    obtain ⟨st, hst, s, hsr, dev, hstr, hdaff, hdneg, hdpos⟩ := set_cpu_affinity_spec os szl hs
      fuel (if argv.length ≥ 2 then atoi szl (argv.getD 1 "") else (os.getpid w).1)
      (strtoul szl (argv.getD 2 "") 0) q.2 hf
    rw [hsr]
    simp only [Option.some_bind]
    refine ⟨_, rfl, qev, _, ?_, hqaff, fun h => (hqneg h).2, ?_, fun h => absurd h3 h,
      fun _ => ⟨st, _, dev, hst, rfl, hdaff, fun h => (hdneg h).2, ?_⟩⟩
    · rw [hstr, hqtr]
      simp [Proc.emit, detected_cores, target_of, initial_query]
    · intro h
      exact (hqpos h).2
    · intro h
      have := (hdpos h).2
      rw [hqn] at this
      exact this
  · rw [if_neg h3]
    refine ⟨_, rfl, qev, [], ?_, hqaff, fun h => (hqneg h).2, ?_, fun _ => rfl,
      fun h => absurd h h3⟩
    · rw [hqtr]
      simp [Proc.emit, detected_cores, target_of, initial_query]
    · intro h
      exact (hqpos h).2

/-! ## Parsing of the arguments -/

/-- A run of digits that starts with a character that is no decimal digit has no
decimal value. -/
lemma scan_digits_non_digit (c : Char) (cs : List Char) (acc : Nat)
    (h : ¬ ('0' ≤ c ∧ c ≤ '9')) : scan_digits 10 (c :: cs) acc = acc := by
  unfold scan_digits digit_value
  rw [if_neg h]
  by_cases h1 : 'a' ≤ c ∧ c ≤ 'z'
  · rw [if_pos h1]
    have : 97 ≤ c.toNat := h1.1
    simp only
    rw [if_neg (by omega)]
  · rw [if_neg h1]
    by_cases h2 : 'A' ≤ c ∧ c ≤ 'Z'
    · rw [if_pos h2]
      have : 65 ≤ c.toNat := h2.1
      simp only
      rw [if_neg (by omega)]
    · rw [if_neg h2]

lemma atoi_of_scan_zero (szl : Nat) (s : String)
    (h : scan_digits 10 (strip_sign (s.data.dropWhile isspace)).2 0 = 0) : atoi szl s = 0 := by
  unfold atoi
  simp only [h]
  have hp : (0 : Int) < 2 ^ (8 * szl - 1) := by positivity
  split
  · rw [max_eq_left (by simp only [Nat.cast_zero, neg_zero]; omega)]
    rfl
  · rw [min_eq_left (by simp only [Nat.cast_zero]; omega)]
    rfl

/-- Non-numeric text parses to 0. -/
lemma atoi_non_numeric (szl : Nat) (s : String) (h : non_numeric s = true) : atoi szl s = 0 := by
  apply atoi_of_scan_zero
  unfold non_numeric at h
  generalize s.data.dropWhile isspace = text at h
  cases text with
  | nil => rfl
  | cons c rest =>
    simp only at h
    simp only [strip_sign]
    by_cases hm : c = '-'
    · rw [if_pos hm]
      rw [if_pos (Or.inl hm)] at h
      cases rest with
      | nil => rfl
      | cons d tl =>
        simp only [Bool.not_eq_true', decide_eq_false_iff_not] at h
        exact scan_digits_non_digit d tl 0 h
    · rw [if_neg hm]
      by_cases hpl : c = '+'
      · rw [if_pos hpl]
        rw [if_pos (Or.inr hpl)] at h
        cases rest with
        | nil => rfl
        | cons d tl =>
          simp only [Bool.not_eq_true', decide_eq_false_iff_not] at h
          exact scan_digits_non_digit d tl 0 h
      · rw [if_neg hpl]
        rw [if_neg (by tauto)] at h
        simp only [Bool.not_eq_true', decide_eq_false_iff_not] at h
        exact scan_digits_non_digit c rest 0 h

/-- With base 0, `strtoul` parses in the base that the marker selects. -/
lemma strtoul_base_zero (szl : Nat) (s : String) :
    strtoul szl s 0 = strtoul szl s (marker_base s) := by
  unfold strtoul marker_base
  generalize (strip_sign (s.data.dropWhile isspace)) = signed
  have key : detect_base 0 signed.2 = detect_base
      (match signed.2 with
        | c :: x :: _ =>
          if c = '0' ∧ (x = 'x' ∨ x = 'X') then 16 else if c = '0' then 8 else 10
        | [c] => if c = '0' then 8 else 10
        | [] => 10) signed.2 := by
    generalize signed.2 = text
    match text with
    | [] => rfl
    | [c] =>
      unfold detect_base
      by_cases h0 : c = '0' <;> simp [h0]
    | c :: x :: cs =>
      unfold detect_base
      by_cases h0 : c = '0'
      · by_cases hx : x = 'x' ∨ x = 'X'
        · simp [h0, hx]
        · simp [h0, hx]
      · simp [h0]
  simp only [key]

/-- Comparing with all the characters of a pattern that holds no NUL is the test that
the text begins with the pattern. -/
lemma strncmp_eq_zero_iff (p : List Char) (hp : ∀ c ∈ p, c.toNat ≠ 0) :
    ∀ (a : List Char), strncmp a p p.length = 0 ↔ p <+: a := by
  induction p with
  | nil => intro a; simp [strncmp]
  | cons c cs ih =>
    intro a
    have hc : c.toNat ≠ 0 := hp c (List.mem_cons_self c cs)
    cases a with
    | nil =>
      simp only [List.length_cons, strncmp, List.prefix_nil, reduceCtorEq, iff_false]
      omega
    | cons d ds =>
      simp only [List.length_cons, strncmp]
      by_cases hdc : d = c
      · subst hdc
        simp only [if_true]
        rw [ih (fun x hx => hp x (List.mem_cons_of_mem d hx)) ds]
        simp
      · rw [if_neg hdc]
        constructor
        · intro h
          exfalso
          apply hdc
          apply Char.ext
          apply UInt32.toNat.inj
          have : d.toNat = c.toNat := by omega
          exact this
        · intro h
          exact absurd (List.cons_prefix_cons.1 h).1.symm hdc

/-- The help test of `main` holds exactly for the arguments that begin with `--help`
or with `-h`. -/
lemma help_requested_iff (arg : String) :
    help_requested arg = true ↔ ("--help".data <+: arg.data ∨ "-h".data <+: arg.data) := by
  unfold help_requested
  rw [Bool.or_eq_true, decide_eq_true_eq, decide_eq_true_eq]
  have h1 := strncmp_eq_zero_iff "--help".data (by decide) arg.data
  have h2 := strncmp_eq_zero_iff "-h".data (by decide) arg.data
  exact or_congr h1 h2

/-! ## The driver: Query and Set calls of a run -/

lemma getLast_of_suffix (pre dev : List Event) (x : Event) (h : dev.getLast? = some x) :
    (pre ++ dev).getLast? = some x := by
  obtain ⟨ys, rfl⟩ := List.getLast?_eq_some_iff.1 h
  rw [← List.append_assoc]
  exact List.getLast?_concat _

/-- The Query and Set calls of a run of `main` without help request: the initial Query
on the target, then, with exactly two arguments, one Set on the same target with the
mask built from the second argument; after a Set that succeeds the last thing printed
is the table of the mask just built. -/
lemma main_calls {σ : Type} (os : OS σ) (szl : Nat) (hs : szl = 4 ∨ szl = 8) (fuel : Nat)
    (hf : 4294967296 < fuel) (argv : List String) (w : σ)
    (hnh : ¬ (argv.length > 1 ∧ help_requested (argv.getD 1 "") = true)) :
    ∃ r, main os szl fuel argv w = some (0, r) ∧
      (argv.length ≠ 3 → affinity_calls r.trace =
        [Event.sched_getaffinity (target_of os szl argv w)
          (initial_query os szl argv w).1 (initial_query os szl argv w).2.1]) ∧
      (argv.length = 3 →
        ∃ st sret, build_cpumask szl fuel (strtoul szl (argv.getD 2 "") 0) = some st ∧
          affinity_calls r.trace =
            [Event.sched_getaffinity (target_of os szl argv w)
              (initial_query os szl argv w).1 (initial_query os szl argv w).2.1,
             Event.sched_setaffinity (target_of os szl argv w) st.cpumask sret] ∧
          (¬ sret < 0 → ∃ t, render_table fuel st.cpumask (detected_cores os w) = some t ∧
            r.trace.getLast? = some (Event.stdout t))) ∧
      ((initial_query os szl argv w).1 < 0 →
        Event.perror "sched_getaffinity() failed" ∈ r.trace) := by
  obtain ⟨r, hr, qev, sev, htr, hqaff, hqneg, _, hs0, hs3⟩ :=
    main_run os szl hs fuel hf argv w hnh
  have hcalls : affinity_calls r.trace =
      Event.sched_getaffinity (target_of os szl argv w)
        (initial_query os szl argv w).1 (initial_query os szl argv w).2.1 ::
        affinity_calls sev := by
    have hq2 : List.filter Event.is_affinity_call qev = [] := hqaff
    rw [htr]
    unfold affinity_calls
    simp [List.filter_cons, Event.is_affinity_call, hq2]
  refine ⟨r, hr, ?_, ?_, ?_⟩
  · intro h3
    rw [hcalls, hs0 h3]
    rfl
  · intro h3
    obtain ⟨st, sret, dev, hst, hsev, hdaff, _, hdpos⟩ := hs3 h3
    refine ⟨st, sret, hst, ?_, ?_⟩
    · have hd2 : List.filter Event.is_affinity_call dev = [] := hdaff
      rw [hcalls, hsev]
      unfold affinity_calls
      simp [List.filter_cons, Event.is_affinity_call, hd2]
    · intro hok
      obtain ⟨t, ht, hlast⟩ := hdpos hok
      refine ⟨t, ht, ?_⟩
      rw [htr, hsev]
      have := getLast_of_suffix
        (Event.getpid (os.getpid w).1 ::
          Event.get_nprocs (os.get_nprocs (os.getpid w).2).1 ::
          Event.stdout ("Detected " ++ fmt_d (to_int (detected_cores os w))
            ++ " CPU cores system-wide\n") ::
          Event.sched_getaffinity (target_of os szl argv w)
            (initial_query os szl argv w).1 (initial_query os szl argv w).2.1 ::
          (qev ++ [Event.stdout ("\nSetting CPU affinity mask for PID "
                ++ fmt_d (target_of os szl argv w) ++ " now...\n"),
              Event.sched_setaffinity (target_of os szl argv w) st.cpumask sret]))
        dev (Event.stdout t) hlast
      simpa using this
  · intro hneg
    rw [htr, hqneg hneg]
    simp

/-- A run of `main` with a help request: the usage text and nothing else, whatever the
fuel. -/
lemma main_help {σ : Type} (os : OS σ) (szl : Nat) (fuel : Nat) (argv : List String) (w : σ)
    (hh : argv.length > 1 ∧ help_requested (argv.getD 1 "") = true) :
    main os szl fuel argv w = some (0, ⟨(os.getpid w).2, 0,
      [Event.getpid (os.getpid w).1, Event.stderr (usage_text (argv.getD 0 ""))]⟩) := by
  unfold main
  simp only
  rw [if_pos hh]
  rfl

/-! ## The driver: the claims -/

/-- C4 (as amended): when a new-mask argument is supplied, the driver issues the
initial Query and one Set and no Query after the Set; when the Set succeeds, the
second table it renders, the last thing it prints, is the rendering of the mask it
requested (the one built from the second argument), whatever the store holds for the
target at that moment. -/
theorem set_displays_requested_mask {σ : Type} (os : OS σ) (szl : Nat) (fuel : Nat)
    (a0 a1 a2 : String) (w : σ) (hs : szl = 4 ∨ szl = 8) (hf : 4294967296 < fuel)
    (hnh : help_requested a1 = false) :
    ∃ r st sret, main os szl fuel [a0, a1, a2] w = some (0, r) ∧
      build_cpumask szl fuel (strtoul szl a2 0) = some st ∧
      affinity_calls r.trace =
        [Event.sched_getaffinity (atoi szl a1)
            (initial_query os szl [a0, a1, a2] w).1 (initial_query os szl [a0, a1, a2] w).2.1,
          Event.sched_setaffinity (atoi szl a1) st.cpumask sret] ∧
      (0 ≤ sret → ∃ t, render_table fuel st.cpumask (detected_cores os w) = some t ∧
        r.trace.getLast? = some (Event.stdout t)) := by
  obtain ⟨r, hr, _, h3, _⟩ := main_calls os szl hs fuel hf [a0, a1, a2] w
    (by simp [hnh])
  obtain ⟨st, sret, hst, hcalls, hok⟩ := h3 rfl
  refine ⟨r, st, sret, hr, hst, hcalls, fun h => hok (by omega)⟩

/-- C4 (as amended) on a store that restricts the requested mask. -/
theorem set_displays_requested_mask_witness :
    ((8 = 4 ∨ 8 = 8) ∧ 4294967296 < 4294967297 ∧ help_requested "12" = false) ∧
    ∃ r st sret, main os_cpuset 8 4294967297 ["prog", "12", "0xf"] cores_0_1 = some (0, r) ∧
      build_cpumask 8 4294967297 (strtoul 8 "0xf" 0) = some st ∧
      affinity_calls r.trace =
        [Event.sched_getaffinity (atoi 8 "12")
            (initial_query os_cpuset 8 ["prog", "12", "0xf"] cores_0_1).1
            (initial_query os_cpuset 8 ["prog", "12", "0xf"] cores_0_1).2.1,
          Event.sched_setaffinity (atoi 8 "12") st.cpumask sret] ∧
      (0 ≤ sret → ∃ t, render_table 4294967297 st.cpumask (detected_cores os_cpuset cores_0_1)
          = some t ∧ r.trace.getLast? = some (Event.stdout t)) :=
  ⟨by decide, set_displays_requested_mask os_cpuset 8 4294967297 "prog" "12" "0xf" cores_0_1
    (by decide) (by decide) (by decide)⟩

/-- C4 as stated fails: on a machine of 4 cores whose store restricts the target to
cores 0 and 1, a Set of `0xf` succeeds; the run holds one Query, issued before the Set,
and none after it; the table displayed after the Set shows cores 0 to 3, the requested
mask, whereas the store reports cores 0 and 1 for the target at that moment, whose
rendering is another table. -/
theorem confirmation_table_is_not_requeried :
    (main os_cpuset 8 100 ["prog", "12", "0xf"] cores_0_1).map (fun r =>
        (r.1, affinity_calls r.2.trace, r.2.trace.getLast?,
          requeried_table os_cpuset 100 12 4 r.2,
          decide (r.2.trace.getLast? = (requeried_table os_cpuset 100 12 4 r.2).map Event.stdout)))
      = some (0,
          [Event.sched_getaffinity 12 0 cores_0_1, Event.sched_setaffinity 12 cores_0_3 0],
          some (Event.stdout ("       +---+---+---+---+\n" ++ "core#  |  3|  2|  1|  0|\n" ++
            "       +---+---+---+---+\n" ++ "cpumask|  1|  1|  1|  1|\n" ++
            "       +---+---+---+---+\n")),
          some ("       +---+---+---+---+\n" ++ "core#  |  3|  2|  1|  0|\n" ++
            "       +---+---+---+---+\n" ++ "cpumask|  0|  0|  1|  1|\n" ++
            "       +---+---+---+---+\n"),
          false) := by
  decide

/-- C5: for every argument vector and every behaviour of the operating system (every
outcome of `sched_getaffinity`, `sched_setaffinity` and the snapshot command), `main`
terminates with exit status 0; a failed Query is reported and does not abort the run,
and with two arguments and no help request the Set is issued after the initial Query
whatever the outcome of that Query. -/
theorem main_exits_zero {σ : Type} (os : OS σ) (szl : Nat) (fuel : Nat)
    (argv : List String) (w : σ) (hs : szl = 4 ∨ szl = 8) (hf : 4294967296 < fuel) :
    ∃ r, main os szl fuel argv w = some (0, r) ∧
      (¬ (argv.length > 1 ∧ help_requested (argv.getD 1 "") = true) →
        ((initial_query os szl argv w).1 < 0 →
          Event.perror "sched_getaffinity() failed" ∈ r.trace) ∧
        (argv.length = 3 →
          ∃ st sret, build_cpumask szl fuel (strtoul szl (argv.getD 2 "") 0) = some st ∧
            affinity_calls r.trace =
              [Event.sched_getaffinity (target_of os szl argv w)
                (initial_query os szl argv w).1 (initial_query os szl argv w).2.1,
               Event.sched_setaffinity (target_of os szl argv w) st.cpumask sret])) := by
  by_cases hh : argv.length > 1 ∧ help_requested (argv.getD 1 "") = true
  · exact ⟨_, main_help os szl fuel argv w hh, fun h => absurd hh h⟩
  · obtain ⟨r, hr, _, h3, hq⟩ := main_calls os szl hs fuel hf argv w hh
    refine ⟨r, hr, fun _ => ⟨hq, fun hlen => ?_⟩⟩
    obtain ⟨st, sret, hst, hcalls, _⟩ := h3 hlen
    exact ⟨st, sret, hst, hcalls⟩

/-- C5 on a run with two arguments where the Query, the Set and the snapshot command
all fail: exit status 0, the failure of the Query is reported, and the Set is issued
all the same. -/
theorem main_exits_zero_witness :
    ((8 = 4 ∨ 8 = 8) ∧ 4294967296 < 4294967297) ∧
    ∃ r, main os_no_target 8 4294967297 ["prog", "4000000", "0x1"] () = some (0, r) ∧
      Event.perror "sched_getaffinity() failed" ∈ r.trace ∧
      ∃ st sret, build_cpumask 8 4294967297 (strtoul 8 "0x1" 0) = some st ∧
        affinity_calls r.trace =
          [Event.sched_getaffinity 4000000 (-1) CPU_ZERO,
           Event.sched_setaffinity 4000000 st.cpumask sret] := by
  refine ⟨by decide, ?_⟩
  obtain ⟨r, hr, h⟩ := main_exits_zero os_no_target 8 4294967297
    ["prog", "4000000", "0x1"] () (by decide) (by decide)
  obtain ⟨hperr, hset⟩ := h (by decide)
  obtain ⟨st, sret, hst, hcalls⟩ := hset rfl
  exact ⟨r, hr, hperr (by decide), st, sret, hst, hcalls⟩

/-- C6 (as amended): if the first argument is `--help` or `-h`, whatever arguments
follow, `main` exits with status 0 having written the usage text to the diagnostic
stream, with no interaction with the operating system other than the `getpid()` of
the declaration of `pid`, which precedes the inspection of the arguments: no
core-count detection, no Query, no Set, no process-listing command, nothing on
standard output; the state of the operating system is the one `getpid()` left. -/
theorem main_help_request {σ : Type} (os : OS σ) (szl : Nat) (fuel : Nat)
    (a0 a1 : String) (rest : List String) (w : σ) (h : a1 = "--help" ∨ a1 = "-h") :
    ∃ r, main os szl fuel (a0 :: a1 :: rest) w = some (0, r) ∧
      r.trace = [Event.getpid (os.getpid w).1,
        Event.stderr ("Usage: " ++ a0 ++ " [PID] [new-CPU-mask]\n" ++
          "(If using the optional params, you must at least pass the process PID;\n" ++
          "we (attempt to) set CPU affinity only if new-CPU-mask is passed)\n")] ∧
      r.world = (os.getpid w).2 ∧
      affinity_calls r.trace = [] ∧
      (∀ e ∈ r.trace, (∀ n, e ≠ Event.get_nprocs n) ∧ (∀ c x, e ≠ Event.system c x) ∧
        (∀ t, e ≠ Event.stdout t)) := by
  have hh : help_requested a1 = true := by
    rcases h with rfl | rfl <;> decide
  refine ⟨_, main_help os szl fuel (a0 :: a1 :: rest) w ⟨by simp, by simpa using hh⟩,
    rfl, rfl, rfl, ?_⟩
  intro e he
  simp only [List.getD_cons_zero, List.mem_cons, List.mem_singleton, List.not_mem_nil,
    or_false] at he
  rcases he with rfl | rfl <;> simp

/-- C6 (as amended) on `--help` followed by further arguments, on an operating system
that counts the calls made to it: one call, the `getpid()`. -/
theorem main_help_request_witness :
    ("--help" = "--help" ∨ "--help" = "-h") ∧
    ∃ r, main os_counting 8 0 ("prog" :: "--help" :: ["12", "0xf"]) 0 = some (0, r) ∧
      r.trace = [Event.getpid 77,
        Event.stderr ("Usage: prog [PID] [new-CPU-mask]\n" ++
          "(If using the optional params, you must at least pass the process PID;\n" ++
          "we (attempt to) set CPU affinity only if new-CPU-mask is passed)\n")] ∧
      r.world = 1 := by
  refine ⟨Or.inl rfl, ?_⟩
  obtain ⟨r, hr, htr, hw, _⟩ :=
    main_help_request os_counting 8 0 "prog" "--help" ["12", "0xf"] 0 (Or.inl rfl)
  exact ⟨r, hr, htr.trans rfl, hw⟩

/-- C6 as stated fails: on `prog --help` the run is not free of interaction with the
operating system.  On an operating system that counts the calls made to it, the count
goes from 0 to 1: `main` calls `getpid()` before it inspects its arguments. -/
theorem help_run_calls_getpid :
    (main os_counting 8 0 ["prog", "--help"] 0).map (fun r => (r.1, r.2.trace, r.2.world))
      = some (0,
          [Event.getpid 77,
            Event.stderr ("Usage: prog [PID] [new-CPU-mask]\n" ++
              "(If using the optional params, you must at least pass the process PID;\n" ++
              "we (attempt to) set CPU affinity only if new-CPU-mask is passed)\n")],
          1) :=
  rfl

/-- C7: dispatch of `main` on the number of arguments, no help being requested.  The
initial Query on the target is the first affinity call of every run.  With zero
arguments the target is the caller's own ID and the Query is the only call; with one
argument the target is the integer parsed from it and the Query is the only call; with
two arguments the Query is followed by exactly one Set on the same target, with the
mask built from the second argument parsed by `strtoul` in base 0, that is in the base
its marker selects (`0x` hex, leading `0` octal, else decimal).  Without exactly two
arguments no Set is issued. -/
theorem main_dispatch {σ : Type} (os : OS σ) (szl : Nat) (fuel : Nat) (argv : List String)
    (w : σ) (hs : szl = 4 ∨ szl = 8) (hf : 4294967296 < fuel)
    (hnh : ¬ (argv.length > 1 ∧ help_requested (argv.getD 1 "") = true)) :
    ∃ r, main os szl fuel argv w = some (0, r) ∧
      (∃ rest, affinity_calls r.trace =
        Event.sched_getaffinity (target_of os szl argv w)
          (initial_query os szl argv w).1 (initial_query os szl argv w).2.1 :: rest) ∧
      (argv.length = 1 → affinity_calls r.trace =
        [Event.sched_getaffinity (os.getpid w).1
          (initial_query os szl argv w).1 (initial_query os szl argv w).2.1]) ∧
      (argv.length = 2 → affinity_calls r.trace =
        [Event.sched_getaffinity (atoi szl (argv.getD 1 ""))
          (initial_query os szl argv w).1 (initial_query os szl argv w).2.1]) ∧
      (argv.length = 3 →
        strtoul szl (argv.getD 2 "") 0
          = strtoul szl (argv.getD 2 "") (marker_base (argv.getD 2 "")) ∧
        ∃ st sret, build_cpumask szl fuel (strtoul szl (argv.getD 2 "") 0) = some st ∧
          affinity_calls r.trace =
            [Event.sched_getaffinity (atoi szl (argv.getD 1 ""))
              (initial_query os szl argv w).1 (initial_query os szl argv w).2.1,
             Event.sched_setaffinity (atoi szl (argv.getD 1 "")) st.cpumask sret]) ∧
      (argv.length ≠ 3 → ∀ e ∈ r.trace, ∀ pid mask ret,
        e ≠ Event.sched_setaffinity pid mask ret) := by
  obtain ⟨r, hr, h0, h3, _⟩ := main_calls os szl hs fuel hf argv w hnh
  refine ⟨r, hr, ?_, ?_, ?_, ?_, ?_⟩
  · by_cases hlen : argv.length = 3
    · obtain ⟨st, sret, _, hcalls, _⟩ := h3 hlen
      exact ⟨_, hcalls⟩
    · exact ⟨_, h0 hlen⟩
  · intro hlen
    rw [h0 (by omega)]
    simp [target_of, hlen]
  · intro hlen
    rw [h0 (by omega)]
    simp [target_of, hlen]
  · intro hlen
    obtain ⟨st, sret, hst, hcalls, _⟩ := h3 hlen
    refine ⟨strtoul_base_zero szl _, st, sret, hst, ?_⟩
    rw [hcalls]
    simp [target_of, hlen]
  · intro hlen e he pid mask ret heq
    subst heq
    have hmem : Event.sched_setaffinity pid mask ret ∈ affinity_calls r.trace :=
      List.mem_filter.2 ⟨he, rfl⟩
    rw [h0 hlen] at hmem
    simp at hmem

/-- C7 on a run with two arguments, the mask given in hex. -/
theorem main_dispatch_witness :
    ((8 = 4 ∨ 8 = 8) ∧ 4294967296 < 4294967297 ∧
      ¬ (["prog", "12", "0xf"].length > 1 ∧
        help_requested (["prog", "12", "0xf"].getD 1 "") = true)) ∧
    strtoul 8 "0xf" 0 = 15 ∧ strtoul 8 "017" 0 = 15 ∧ strtoul 8 "15" 0 = 15 ∧
    ∃ r, main os_cpuset 8 4294967297 ["prog", "12", "0xf"] cores_0_1 = some (0, r) ∧
      ∃ st sret, build_cpumask 8 4294967297 (strtoul 8 "0xf" 0) = some st ∧
        affinity_calls r.trace =
          [Event.sched_getaffinity (atoi 8 "12")
            (initial_query os_cpuset 8 ["prog", "12", "0xf"] cores_0_1).1
            (initial_query os_cpuset 8 ["prog", "12", "0xf"] cores_0_1).2.1,
           Event.sched_setaffinity (atoi 8 "12") st.cpumask sret] := by
  refine ⟨by decide, by decide, by decide, by decide, ?_⟩
  obtain ⟨r, hr, _, _, _, h3, _⟩ := main_dispatch os_cpuset 8 4294967297
    ["prog", "12", "0xf"] cores_0_1 (by decide) (by decide) (by decide)
  exact ⟨r, hr, (h3 rfl).2⟩

/-- C8 (as amended): for every invocation whose single argument is non-numeric text,
the run exits with status 0; when the argument does not begin with `--help` or `-h`,
it is treated as target ID 0 and the only affinity call of the run is the Query on ID
0; when it begins with `--help` or `-h` (as `-hx` does), the test of `main` takes it
for a help request and the run ends with the usage text before any Query. -/
theorem main_non_numeric_target {σ : Type} (os : OS σ) (szl : Nat) (fuel : Nat)
    (a0 a1 : String) (w : σ) (hs : szl = 4 ∨ szl = 8) (hf : 4294967296 < fuel)
    (hnn : non_numeric a1 = true) :
    ∃ r, main os szl fuel [a0, a1] w = some (0, r) ∧
      (¬ ("--help".data <+: a1.data ∨ "-h".data <+: a1.data) →
        atoi szl a1 = 0 ∧
        affinity_calls r.trace = [Event.sched_getaffinity 0
          (initial_query os szl [a0, a1] w).1 (initial_query os szl [a0, a1] w).2.1]) ∧
      (("--help".data <+: a1.data ∨ "-h".data <+: a1.data) →
        r.trace = [Event.getpid (os.getpid w).1, Event.stderr (usage_text a0)]) := by
  by_cases hh : help_requested a1 = true
  · have hpre := (help_requested_iff a1).1 hh
    exact ⟨_, main_help os szl fuel [a0, a1] w ⟨by simp, by simpa using hh⟩,
      fun h => absurd hpre h, fun _ => rfl⟩
  · have hpre : ¬ ("--help".data <+: a1.data ∨ "-h".data <+: a1.data) :=
      fun h => hh ((help_requested_iff a1).2 h)
    obtain ⟨r, hr, h0, _, _⟩ := main_calls os szl hs fuel hf [a0, a1] w
      (by simp [hh])
    refine ⟨r, hr, fun _ => ⟨atoi_non_numeric szl a1 hnn, ?_⟩, fun h => absurd h hpre⟩
    rw [h0 (by simp)]
    simp [target_of, atoi_non_numeric szl a1 hnn]

/-- C8 (as amended) on the argument `abc`. -/
theorem main_non_numeric_target_witness :
    ((8 = 4 ∨ 8 = 8) ∧ 4294967296 < 4294967297 ∧ non_numeric "abc" = true) ∧
    ∃ r, main os_cpuset 8 4294967297 ["prog", "abc"] cores_0_1 = some (0, r) ∧
      affinity_calls r.trace = [Event.sched_getaffinity 0 0 cores_0_1] := by
  refine ⟨by decide, ?_⟩
  obtain ⟨r, hr, h1, _⟩ := main_non_numeric_target os_cpuset 8 4294967297 "prog" "abc"
    cores_0_1 (by decide) (by decide) (by decide)
  exact ⟨r, hr, (h1 (by decide)).2⟩

/-- C8 as stated fails: the single argument `-hx` is non-numeric text and is neither
`--help` nor `-h`, yet the run ends with the usage text and no Query is issued. -/
theorem non_numeric_argument_ends_run :
    non_numeric "-hx" = true ∧ "-hx" ≠ "--help" ∧ "-hx" ≠ "-h" ∧
    (main os_cpuset 8 100 ["prog", "-hx"] cores_0_1).map
        (fun r => (r.1, r.2.trace, affinity_calls r.2.trace))
      = some (0, [Event.getpid 77, Event.stderr (usage_text "prog")], []) :=
  ⟨by decide, by decide, by decide, rfl⟩

end CpuAffinity
